import Mathlib

/-!
Verification of the blog-reference remover script (remove_blog.py).

The script applies four regular-expression substitutions to the text of each
HTML file, collapses runs of three or more newlines to two, writes a file back
only when its text changed, deletes the fixed-named files blog.html and
blogs.html when present, and prints a report.

We shallowly embed the program: text is a list of characters, each regex is a
list of atoms mirroring the pattern's syntax, and the matcher implements the
leftmost / greedy-with-backtracking semantics of Python's re module (ASCII
case folding for re.IGNORECASE, ASCII whitespace for the class written with a
backslash-s).  Substitution mirrors re.sub: scan left to right, replace each
non-overlapping match, advance one character after a failed or empty match.
-/

set_option maxRecDepth 10000

namespace RemoveBlog

/-- Text is modelled as a list of characters. -/
abbrev Str := List Char

/-- ASCII case folding: uppercase letters map to lowercase codepoints,
everything else is unchanged.  Mirrors how re.IGNORECASE compares ASCII. -/
def lowN (n : Nat) : Nat := if 65 ≤ n && n ≤ 90 then n + 32 else n

/-- Case-insensitive character comparison (ASCII folding). -/
def eqI (a b : Char) : Bool := lowN a.toNat == lowN b.toNat

/-- The whitespace class of the regexes (space, tab, newline, carriage
return, vertical tab, form feed). -/
def wsChar (c : Char) : Bool :=
  c.toNat == 32 || c.toNat == 9 || c.toNat == 10 || c.toNat == 13 ||
  c.toNat == 11 || c.toNat == 12

/-- The negated class excluding a greater-than sign. -/
def notGt (c : Char) : Bool := !(c.toNat == 62)

/-- The negated class excluding a double quote. -/
def notQuote (c : Char) : Bool := !(c.toNat == 34)

/-- The class matching exactly a newline. -/
def nlChar (c : Char) : Bool := c.toNat == 10

/-- The class of digits 1 through 6 (heading levels). -/
def d16 (c : Char) : Bool := 49 ≤ c.toNat && c.toNat ≤ 54

/-- The class matching any character at all. -/
def anyChar (_ : Char) : Bool := true

/-- One syntactic piece of a pattern: a case-insensitive literal, a single
character class, an optional single class, a greedy class star, a lazy class
star, an alternation of two literals, or a greedy at-least-n repetition of a
class.  These are exactly the constructs the four patterns use. -/
inductive Atom where
  | lit (l : List Char)
  | cls (p : Char → Bool)
  | opt (p : Char → Bool)
  | star (p : Char → Bool)
  | lazyStar (p : Char → Bool)
  | alt (a b : List Char)
  | rep (n : Nat) (p : Char → Bool)

/-- Case-insensitive test that a literal begins the given text. -/
def ciPref : List Char → Str → Bool
  | [], _ => true
  | _ :: _, [] => false
  | p :: ps, c :: cs => eqI p c && ciPref ps cs

/-- Length of the maximal front run of characters satisfying a class. -/
def charRun (p : Char → Bool) : Str → Nat
  | [] => 0
  | c :: cs => if p c then charRun p cs + 1 else 0

/-- Greedy backtracking search: try the candidate count m, then m-1, and so
on down to 0, returning the first success. -/
def tryDown (f : Nat → Option Nat) : Nat → Option Nat
  | 0 => f 0
  | m + 1 =>
    match f (m + 1) with
    | some r => some r
    | none => tryDown f m

/-- Lazy backtracking search: try the candidate count j, then j+1, and so on,
for fuel+1 attempts, returning the first success. -/
def tryUp (f : Nat → Option Nat) : Nat → Nat → Option Nat
  | 0, j => f j
  | fuel + 1, j =>
    match f j with
    | some r => some r
    | none => tryUp f fuel (j + 1)

/-- Backtracking matcher: given a pattern (list of atoms) and a text, return
the number of characters a match starting at the head of the text consumes,
or none.  Greedy pieces prefer the longest candidate, lazy pieces the
shortest, alternations the left branch, exactly as Python's re engine. -/
def matchAtoms : List Atom → Str → Option Nat
  | [], _ => some 0
  | Atom.lit l :: rest, s =>
    if ciPref l s then (matchAtoms rest (s.drop l.length)).map (· + l.length) else none
  | Atom.cls p :: rest, s =>
    match s with
    | [] => none
    | c :: cs => if p c then (matchAtoms rest cs).map (· + 1) else none
  | Atom.opt p :: rest, s =>
    match s with
    | [] => matchAtoms rest []
    | c :: cs =>
      if p c then
        match (matchAtoms rest cs).map (· + 1) with
        | some r => some r
        | none => matchAtoms rest (c :: cs)
      else matchAtoms rest (c :: cs)
  | Atom.star p :: rest, s =>
    tryDown (fun j => (matchAtoms rest (s.drop j)).map (· + j)) (charRun p s)
  | Atom.lazyStar p :: rest, s =>
    tryUp (fun j => (matchAtoms rest (s.drop j)).map (· + j)) (charRun p s) 0
  | Atom.alt a b :: rest, s =>
    match (if ciPref a s then (matchAtoms rest (s.drop a.length)).map (· + a.length) else none) with
    | some r => some r
    | none =>
      if ciPref b s then (matchAtoms rest (s.drop b.length)).map (· + b.length) else none
  | Atom.rep n p :: rest, s =>
    let k := charRun p s
    if k < n then none
    else tryDown (fun j => (matchAtoms rest (s.drop (n + j))).map (· + (n + j))) (k - n)

/-- Fuel-indexed substitution loop of re.sub: at each position try a match;
on a non-empty match emit the replacement and continue after the match; on an
empty match emit the replacement, copy one character and continue; on a
failure copy one character and continue. -/
def subAllF (pat : List Atom) (repl : Str) : Nat → Str → Str
  | 0, _ => []
  | fuel + 1, s =>
    match matchAtoms pat s with
    | some 0 =>
      repl ++ (match s with
        | [] => []
        | c :: cs => c :: subAllF pat repl fuel cs)
    | some (n + 1) => repl ++ subAllF pat repl fuel (s.drop (n + 1))
    | none =>
      match s with
      | [] => []
      | c :: cs => c :: subAllF pat repl fuel cs

/-- Substitution of every non-overlapping match, as re.sub performs it. -/
def subAll (pat : List Atom) (repl : Str) (s : Str) : Str :=
  subAllF pat repl (s.length + 1) s

/-- First pattern of the script: a list item wrapping a blog anchor, with an
optional leading newline, surrounding whitespace, an href value containing
the letters b l o g, link text Blog, and trailing whitespace. -/
def pat1 : List Atom :=
  [Atom.opt nlChar, Atom.star wsChar,
   Atom.lit ['<', 'l', 'i'], Atom.star notGt, Atom.lit ['>'],
   Atom.star wsChar,
   Atom.lit ['<', 'a'], Atom.star notGt,
   Atom.lit ['h', 'r', 'e', 'f', '=', '"'],
   Atom.star notQuote, Atom.lit ['b', 'l', 'o', 'g'], Atom.star notQuote,
   Atom.lit ['"'], Atom.star notGt, Atom.lit ['>'],
   Atom.star wsChar, Atom.lit ['B', 'l', 'o', 'g'], Atom.star wsChar,
   Atom.lit ['<', '/', 'a', '>'], Atom.star wsChar,
   Atom.lit ['<', '/', 'l', 'i', '>'], Atom.star wsChar]

/-- Second pattern: a standalone blog anchor with the same href and text
condition, optional leading newline and surrounding whitespace. -/
def pat2 : List Atom :=
  [Atom.opt nlChar, Atom.star wsChar,
   Atom.lit ['<', 'a'], Atom.star notGt,
   Atom.lit ['h', 'r', 'e', 'f', '=', '"'],
   Atom.star notQuote, Atom.lit ['b', 'l', 'o', 'g'], Atom.star notQuote,
   Atom.lit ['"'], Atom.star notGt, Atom.lit ['>'],
   Atom.star wsChar, Atom.lit ['B', 'l', 'o', 'g'], Atom.star wsChar,
   Atom.lit ['<', '/', 'a', '>'], Atom.star wsChar]

/-- Third pattern: a section element whose id or class attribute value
contains the letters b l o g, matched lazily up to the first closing
section tag. -/
def pat3 : List Atom :=
  [Atom.lit ['<', 's', 'e', 'c', 't', 'i', 'o', 'n'], Atom.star notGt,
   Atom.alt ['i', 'd'] ['c', 'l', 'a', 's', 's'],
   Atom.lit ['=', '"'],
   Atom.star notQuote, Atom.lit ['b', 'l', 'o', 'g'], Atom.star notQuote,
   Atom.lit ['"'], Atom.star notGt, Atom.lit ['>'],
   Atom.lazyStar anyChar,
   Atom.lit ['<', '/', 's', 'e', 'c', 't', 'i', 'o', 'n', '>']]

/-- Fourth pattern: a heading element (levels 1 through 6) whose text is
Blog up to surrounding whitespace, with optional leading newline and
trailing whitespace. -/
def pat4 : List Atom :=
  [Atom.opt nlChar, Atom.star wsChar,
   Atom.lit ['<', 'h'], Atom.cls d16, Atom.star notGt, Atom.lit ['>'],
   Atom.star wsChar, Atom.lit ['B', 'l', 'o', 'g'], Atom.star wsChar,
   Atom.lit ['<', '/', 'h'], Atom.cls d16, Atom.lit ['>'],
   Atom.star wsChar]

/-- The newline-collapse pattern: three or more consecutive newlines. -/
def collapsePat : List Atom := [Atom.rep 3 nlChar]

/-- The four substitution rules in the script's order, each paired with its
(empty) replacement. -/
def rules : List (List Atom × Str) :=
  [(pat1, []), (pat2, []), (pat3, []), (pat4, [])]

/-- Apply the four substitution rules in order, each output feeding the next
rule, as the script's inner loop does. -/
def applyRules (s : Str) : Str :=
  rules.foldl (fun t pr => subAll pr.1 pr.2 t) s

/-- The final clean-up substitution: replace each run of three or more
newlines by exactly two. -/
def collapse (s : Str) : Str := subAll collapsePat ['\n', '\n'] s

/-- The whole per-file transformation: the four rules then the collapse. -/
def processText (s : Str) : Str := collapse (applyRules s)

/-- A file of the root directory: a name and its text content. -/
structure FileEntry where
  name : Str
  content : Str

/-- The main loop over the globbed html files, in enumeration order: process
each file's text, and when the result differs from the original record a
write operation (name and new content) and a report entry; otherwise leave
the file untouched.  Returns the directory afterwards, the write operations
performed, and the report entries, each in file order. -/
def runPass : List FileEntry → List FileEntry × List (Str × Str) × List Str
  | [] => ([], [], [])
  | f :: fs =>
    let t := processText f.content
    let r := runPass fs
    if t = f.content then (f :: r.1, r.2.1, r.2.2)
    else (⟨f.name, t⟩ :: r.1, (f.name, t) :: r.2.1, f.name :: r.2.2)

/-- The fixed-name deletion loop: for each name in order, if a file with
that name exists, remove it and record a report entry with the
deleted suffix. -/
def deleteNames : List Str → List FileEntry → List FileEntry × List Str
  | [], fs => (fs, [])
  | n :: ns, fs =>
    if fs.any (fun f => f.name == n) then
      let r := deleteNames ns (fs.filter (fun f => !(f.name == n)))
      (r.1, (n ++ " (deleted)".toList) :: r.2)
    else deleteNames ns fs

/-- The two fixed filenames the script always checks. -/
def fixedNames : List Str := ["blog.html".toList, "blogs.html".toList]

/-- Join report entries with newlines, as the final print does. -/
def joinNl : List Str → Str
  | [] => []
  | [x] => x
  | x :: y :: xs => x ++ '\n' :: joinNl (y :: xs)

/-- Observable outcome of one invocation: the directory afterwards, the
write operations performed, and the printed report. -/
structure RunResult where
  files : List FileEntry
  writeOps : List (Str × Str)
  output : Str

/-- The whole script: the substitution pass over all files, then the
unconditional fixed-name deletion step, then the single final print. -/
def runScript (files : List FileEntry) : RunResult :=
  let pr := runPass files
  let dr := deleteNames fixedNames pr.1
  let changed := pr.2.2 ++ dr.2
  ⟨dr.1, pr.2.1, if changed.isEmpty then "No changes".toList else joinNl changed⟩


/-! ### Basic properties of the matcher -/

theorem tryDown_some {f : Nat → Option Nat} {m r : Nat} (h : tryDown f m = some r) :
    ∃ j, j ≤ m ∧ f j = some r := by
  induction m with
  | zero => exact ⟨0, le_refl 0, h⟩
  | succ m ih =>
    rw [tryDown] at h
    rcases hf : f (m + 1) with _ | v
    · rw [hf] at h
      obtain ⟨j, hj, hfj⟩ := ih h
      exact ⟨j, le_trans hj (Nat.le_succ m), hfj⟩
    · rw [hf] at h
      exact ⟨m + 1, le_refl _, hf.trans h⟩

theorem tryUp_some {f : Nat → Option Nat} {fuel j r : Nat} (h : tryUp f fuel j = some r) :
    ∃ i, i ≤ fuel ∧ f (j + i) = some r := by
  induction fuel generalizing j with
  | zero => exact ⟨0, le_refl 0, h⟩
  | succ fuel ih =>
    rw [tryUp] at h
    rcases hf : f j with _ | v
    · rw [hf] at h
      obtain ⟨i, hi, hfi⟩ := ih h
      exact ⟨i + 1, Nat.succ_le_succ hi, by rw [show j + (i + 1) = j + 1 + i by omega]; exact hfi⟩
    · rw [hf] at h
      exact ⟨0, Nat.zero_le _, by rw [Nat.add_zero]; exact hf.trans h⟩

theorem charRun_le_length (p : Char → Bool) (s : Str) : charRun p s ≤ s.length := by
  induction s with
  | nil => simp [charRun]
  | cons c cs ih =>
    cases hp : p c
    · simp [charRun, hp]
    · simp only [charRun, hp, if_true, List.length_cons]
      omega

theorem ciPref_length {l : List Char} {s : Str} (h : ciPref l s = true) :
    l.length ≤ s.length := by
  induction l generalizing s with
  | nil => simp
  | cons c cs ih =>
    cases s with
    | nil => exact absurd h (by rw [ciPref]; simp)
    | cons d ds =>
      rw [ciPref, Bool.and_eq_true] at h
      simpa [List.length_cons] using Nat.succ_le_succ (ih h.2)

theorem matchAtoms_le {pat : List Atom} : ∀ {s : Str} {n : Nat},
    matchAtoms pat s = some n → n ≤ s.length := by
  induction pat with
  | nil =>
    intro s n h
    have h2 : some 0 = some n := h
    injection h2 with h3
    omega
  | cons a rest ih =>
    intro s n h
    cases a with
    | lit l =>
      simp only [matchAtoms] at h
      by_cases hp : ciPref l s
      · rw [if_pos hp, Option.map_eq_some'] at h
        obtain ⟨m, hm, hn⟩ := h
        have h1 := ih hm
        have h2 := ciPref_length hp
        rw [List.length_drop] at h1
        omega
      · rw [if_neg hp] at h
        exact Option.noConfusion h
    | cls p =>
      cases s with
      | nil =>
        simp only [matchAtoms] at h
        exact Option.noConfusion h
      | cons c cs =>
        simp only [matchAtoms] at h
        by_cases hp : p c
        · rw [if_pos hp, Option.map_eq_some'] at h
          obtain ⟨m, hm, hn⟩ := h
          have := ih hm
          simp only [List.length_cons]
          omega
        · rw [if_neg hp] at h
          exact Option.noConfusion h
    | opt p =>
      cases s with
      | nil =>
        simp only [matchAtoms] at h
        exact ih h
      | cons c cs =>
        simp only [matchAtoms] at h
        by_cases hp : p c
        · rw [if_pos hp] at h
          rcases hmap : (matchAtoms rest cs).map (· + 1) with _ | v
          · rw [hmap] at h
            exact ih h
          · rw [hmap] at h
            have hv : v = n := Option.some.inj h
            rw [Option.map_eq_some'] at hmap
            obtain ⟨m, hm, hv2⟩ := hmap
            have := ih hm
            simp only [List.length_cons]
            omega
        · rw [if_neg hp] at h
          exact ih h
    | star p =>
      simp only [matchAtoms] at h
      obtain ⟨j, hj, hfj⟩ := tryDown_some h
      rw [Option.map_eq_some'] at hfj
      obtain ⟨m, hm, hn⟩ := hfj
      have h1 := ih hm
      have h2 := charRun_le_length p s
      rw [List.length_drop] at h1
      omega
    | lazyStar p =>
      simp only [matchAtoms] at h
      obtain ⟨i, hi, hfi⟩ := tryUp_some h
      rw [Nat.zero_add, Option.map_eq_some'] at hfi
      obtain ⟨m, hm, hn⟩ := hfi
      have h1 := ih hm
      have h2 := charRun_le_length p s
      rw [List.length_drop] at h1
      omega
    | alt a b =>
      simp only [matchAtoms] at h
      rcases hbr : (if ciPref a s then (matchAtoms rest (s.drop a.length)).map (· + a.length) else none) with _ | v
      · rw [hbr] at h
        by_cases hp : ciPref b s
        · rw [if_pos hp, Option.map_eq_some'] at h
          obtain ⟨m, hm, hn⟩ := h
          have h1 := ih hm
          have h2 := ciPref_length hp
          rw [List.length_drop] at h1
          omega
        · rw [if_neg hp] at h
          exact Option.noConfusion h
      · rw [hbr] at h
        have hv : v = n := Option.some.inj h
        by_cases hp : ciPref a s
        · rw [if_pos hp, Option.map_eq_some'] at hbr
          obtain ⟨m, hm, hn⟩ := hbr
          have h1 := ih hm
          have h2 := ciPref_length hp
          rw [List.length_drop] at h1
          omega
        · rw [if_neg hp] at hbr
          exact Option.noConfusion hbr
    | rep k p =>
      simp only [matchAtoms] at h
      by_cases hk : charRun p s < k
      · rw [if_pos hk] at h
        exact Option.noConfusion h
      · rw [if_neg hk] at h
        obtain ⟨j, hj, hfj⟩ := tryDown_some h
        rw [Option.map_eq_some'] at hfj
        obtain ⟨m, hm, hn⟩ := hfj
        have h1 := ih hm
        have h2 := charRun_le_length p s
        rw [List.length_drop] at h1
        omega

/-! ### The substitution loop: fuel independence and step equations -/

theorem subAllF_succ (pat : List Atom) (repl : Str) (fuel : Nat) (s : Str) :
    subAllF pat repl (fuel + 1) s =
      match matchAtoms pat s with
      | some 0 =>
        repl ++ (match s with
          | [] => []
          | c :: cs => c :: subAllF pat repl fuel cs)
      | some (n + 1) => repl ++ subAllF pat repl fuel (s.drop (n + 1))
      | none =>
        match s with
        | [] => []
        | c :: cs => c :: subAllF pat repl fuel cs := rfl

theorem subAllF_congr (pat : List Atom) (repl : Str) :
    ∀ f g s, s.length < f → s.length < g →
      subAllF pat repl f s = subAllF pat repl g s := by
  intro f
  induction f with
  | zero => intro g s hf _; exact absurd hf (Nat.not_lt_zero _)
  | succ f ih =>
    intro g s hf hg
    cases g with
    | zero => exact absurd hg (Nat.not_lt_zero _)
    | succ g =>
      rw [subAllF_succ, subAllF_succ]
      rcases hm : matchAtoms pat s with _ | n
      · cases s with
        | nil => rfl
        | cons c cs =>
          show c :: subAllF pat repl f cs = c :: subAllF pat repl g cs
          have h1 : cs.length < f := by simp only [List.length_cons] at hf; omega
          have h2 : cs.length < g := by simp only [List.length_cons] at hg; omega
          rw [ih g cs h1 h2]
      · cases n with
        | zero =>
          cases s with
          | nil => rfl
          | cons c cs =>
            show repl ++ (c :: subAllF pat repl f cs) = repl ++ (c :: subAllF pat repl g cs)
            have h1 : cs.length < f := by simp only [List.length_cons] at hf; omega
            have h2 : cs.length < g := by simp only [List.length_cons] at hg; omega
            rw [ih g cs h1 h2]
        | succ n =>
          show repl ++ subAllF pat repl f (s.drop (n + 1)) =
            repl ++ subAllF pat repl g (s.drop (n + 1))
          have hb := matchAtoms_le hm
          have h1 : (s.drop (n + 1)).length < f := by rw [List.length_drop]; omega
          have h2 : (s.drop (n + 1)).length < g := by rw [List.length_drop]; omega
          rw [ih g _ h1 h2]

theorem subAll_nil_of_none {pat : List Atom} (repl : Str)
    (h : matchAtoms pat [] = none) : subAll pat repl [] = [] := by
  rw [subAll, subAllF_succ, h]

theorem subAll_cons_of_none {pat : List Atom} (repl : Str) {c : Char} {cs : Str}
    (h : matchAtoms pat (c :: cs) = none) :
    subAll pat repl (c :: cs) = c :: subAll pat repl cs := by
  rw [subAll, List.length_cons, subAllF_succ, h]
  rfl

theorem subAll_of_pos {pat : List Atom} (repl : Str) {s : Str} {n : Nat}
    (h : matchAtoms pat s = some (n + 1)) :
    subAll pat repl s = repl ++ subAll pat repl (s.drop (n + 1)) := by
  have hb := matchAtoms_le h
  rw [subAll, subAllF_succ, h]
  show repl ++ subAllF pat repl s.length (s.drop (n + 1)) = _
  congr 1
  rw [subAll]
  exact subAllF_congr pat repl _ _ _
    (by rw [List.length_drop]; omega)
    (Nat.lt_succ_self _)

/-! ### Texts without matches are left unchanged -/

/-- Check that no match of the pattern starts at any position of the text,
the end position included. -/
def noMatchB (pat : List Atom) (s : Str) : Bool :=
  (List.range (s.length + 1)).all fun i => (matchAtoms pat (s.drop i)).isNone

/-- Check that no match of the pattern starts at a position lying inside the
given prefix of the text formed by appending the rest. -/
def noMatchPrefB (pat : List Atom) (pre rest : Str) : Bool :=
  (List.range pre.length).all fun i => (matchAtoms pat ((pre ++ rest).drop i)).isNone

theorem noMatchB_spec {pat : List Atom} {s : Str} (h : noMatchB pat s = true) :
    ∀ i, i ≤ s.length → matchAtoms pat (s.drop i) = none := by
  intro i hi
  rw [noMatchB, List.all_eq_true] at h
  exact Option.isNone_iff_eq_none.mp (h i (List.mem_range.mpr (by omega)))

theorem noMatchB_tail {pat : List Atom} {c : Char} {cs : Str}
    (h : noMatchB pat (c :: cs) = true) : noMatchB pat cs = true := by
  rw [noMatchB, List.all_eq_true]
  intro i hi
  rw [noMatchB, List.all_eq_true] at h
  have h2 := h (i + 1) (by
    rw [List.mem_range] at hi ⊢
    simp only [List.length_cons]
    omega)
  simpa [List.drop_succ_cons] using h2

theorem subAll_id_aux {pat : List Atom} (repl : Str) :
    ∀ n s, List.length s ≤ n → noMatchB pat s = true → subAll pat repl s = s := by
  intro n
  induction n with
  | zero =>
    intro s hs h
    have hnil : s = [] := List.length_eq_zero.mp (by omega)
    subst hnil
    exact subAll_nil_of_none repl (by simpa using noMatchB_spec h 0 (by simp))
  | succ n ih =>
    intro s hs h
    cases s with
    | nil => exact subAll_nil_of_none repl (by simpa using noMatchB_spec h 0 (by simp))
    | cons c cs =>
      have h0 : matchAtoms pat (c :: cs) = none := by
        simpa using noMatchB_spec h 0 (by simp)
      rw [subAll_cons_of_none repl h0,
        ih cs (by simp only [List.length_cons] at hs; omega) (noMatchB_tail h)]

/-- A text in which the pattern matches nowhere is left unchanged by the
substitution. -/
theorem subAll_eq_self {pat : List Atom} (repl : Str) {s : Str}
    (h : noMatchB pat s = true) : subAll pat repl s = s :=
  subAll_id_aux repl s.length s (le_refl _) h

/-- If no match starts inside the prefix, substitution passes over it and
continues in the rest. -/
theorem subAll_append {pat : List Atom} (repl : Str) :
    ∀ pre rest : Str, noMatchPrefB pat pre rest = true →
      subAll pat repl (pre ++ rest) = pre ++ subAll pat repl rest := by
  intro pre
  induction pre with
  | nil => intro rest _; simp
  | cons c pre ih =>
    intro rest h
    have h0 : matchAtoms pat (c :: (pre ++ rest)) = none := by
      rw [noMatchPrefB, List.all_eq_true] at h
      have := h 0 (List.mem_range.mpr (by simp [List.length_cons]))
      simpa using this
    have hshift : noMatchPrefB pat pre rest = true := by
      rw [noMatchPrefB, List.all_eq_true]
      intro i hi
      rw [noMatchPrefB, List.all_eq_true] at h
      have h2 := h (i + 1) (by
        rw [List.mem_range] at hi ⊢
        simp only [List.length_cons]
        omega)
      simpa [List.drop_succ_cons] using h2
    rw [List.cons_append, subAll_cons_of_none repl h0, ih rest hshift, List.cons_append]

/-! ### The main loop: write-back policy, deletion step, report -/

theorem runPass_writes (files : List FileEntry) :
    (runPass files).2.1 =
      (files.filter fun f => !(processText f.content == f.content)).map
        fun f => (f.name, processText f.content) := by
  induction files with
  | nil => rfl
  | cons f fs ih =>
    simp only [runPass]
    by_cases h : processText f.content = f.content
    · rw [if_pos h]
      have hb : (!(processText f.content == f.content)) = false := by
        simp [h]
      simp [List.filter_cons, hb, ih]
    · rw [if_neg h]
      have hb : (!(processText f.content == f.content)) = true := by
        simp [h]
      simp [List.filter_cons, hb, ih]

theorem runPass_reports (files : List FileEntry) :
    (runPass files).2.2 =
      (files.filter fun f => !(processText f.content == f.content)).map
        fun f => f.name := by
  induction files with
  | nil => rfl
  | cons f fs ih =>
    simp only [runPass]
    by_cases h : processText f.content = f.content
    · rw [if_pos h]
      have hb : (!(processText f.content == f.content)) = false := by
        simp [h]
      simp [List.filter_cons, hb, ih]
    · rw [if_neg h]
      have hb : (!(processText f.content == f.content)) = true := by
        simp [h]
      simp [List.filter_cons, hb, ih]

theorem runPass_names (files : List FileEntry) :
    (runPass files).1.map (fun f => f.name) = files.map fun f => f.name := by
  induction files with
  | nil => rfl
  | cons f fs ih =>
    simp only [runPass]
    by_cases h : processText f.content = f.content
    · rw [if_pos h]; simp [ih]
    · rw [if_neg h]; simp [ih]

theorem any_name_filter {a b : Str} (hne : (b == a) = false) (fs : List FileEntry) :
    ((fs.filter fun f => !(f.name == a)).any fun f => f.name == b) =
      fs.any fun f => f.name == b := by
  induction fs with
  | nil => rfl
  | cons f fs ih =>
    rw [List.filter_cons]
    by_cases hfa : (f.name == a) = true
    · have hfb : (f.name == b) = false := by
        have : f.name = a := by simpa using hfa
        subst this
        rcases hb : f.name == b with _ | _
        · rfl
        · have : f.name = b := by simpa using hb
          subst this
          simp at hne
      simp [hfa, hfb, ih]
    · have hfa2 : (f.name == a) = false := by
        rcases hx : f.name == a with _ | _
        · rfl
        · exact absurd hx hfa
      simp [hfa2, List.any_cons, ih]

theorem name_eq_false_of_any {a : Str} {fs : List FileEntry}
    (h : (fs.any fun f => f.name == a) = false) :
    ∀ f ∈ fs, (f.name == a) = false := by
  intro f hf
  rcases hx : f.name == a with _ | _
  · rfl
  · exact absurd (List.any_eq_true.mpr ⟨f, hf, hx⟩) (by rw [h]; exact Bool.false_ne_true)

theorem deleteNames_fixed (fs : List FileEntry) :
    deleteNames fixedNames fs =
      (fs.filter fun f =>
        !(f.name == "blog.html".toList) && !(f.name == "blogs.html".toList),
       (if fs.any (fun f => f.name == "blog.html".toList)
        then ["blog.html (deleted)".toList] else [])
         ++ (if fs.any (fun f => f.name == "blogs.html".toList)
             then ["blogs.html (deleted)".toList] else [])) := by
  have hne : ("blogs.html".toList == "blog.html".toList) = false := by decide
  have hb1 : "blog.html".toList ++ " (deleted)".toList = "blog.html (deleted)".toList := by
    decide
  have hb2 : "blogs.html".toList ++ " (deleted)".toList = "blogs.html (deleted)".toList := by
    decide
  rw [fixedNames, deleteNames]
  rcases h1 : fs.any fun f => f.name == "blog.html".toList with _ | _
  · rw [if_neg Bool.false_ne_true, deleteNames]
    rcases h2 : fs.any fun f => f.name == "blogs.html".toList with _ | _
    · rw [if_neg Bool.false_ne_true, deleteNames, if_neg Bool.false_ne_true,
        if_neg Bool.false_ne_true]
      have hself : (fs.filter fun f =>
          !(f.name == "blog.html".toList) && !(f.name == "blogs.html".toList)) = fs := by
        rw [List.filter_eq_self]
        intro f hf
        rw [name_eq_false_of_any h1 f hf, name_eq_false_of_any h2 f hf]
        rfl
      rw [hself]
      rfl
    · rw [if_pos rfl, deleteNames, if_neg Bool.false_ne_true, if_pos rfl, hb2]
      have hfe : (fs.filter fun f => !(f.name == "blogs.html".toList)) =
          fs.filter fun f =>
            !(f.name == "blog.html".toList) && !(f.name == "blogs.html".toList) := by
        apply List.filter_congr
        intro f hf
        rw [name_eq_false_of_any h1 f hf]
        simp
      rw [hfe]
      rfl
  · rw [if_pos rfl, deleteNames, any_name_filter hne fs]
    rcases h2 : fs.any fun f => f.name == "blogs.html".toList with _ | _
    · rw [if_neg Bool.false_ne_true, if_pos rfl, if_neg Bool.false_ne_true, hb1]
      have hfe : (fs.filter fun f => !(f.name == "blog.html".toList)) =
          fs.filter fun f =>
            !(f.name == "blog.html".toList) && !(f.name == "blogs.html".toList) := by
        apply List.filter_congr
        intro f hf
        rw [name_eq_false_of_any h2 f hf]
        simp
      rw [hfe]
      rfl
    · rw [if_pos rfl, deleteNames, List.filter_filter, if_pos rfl, if_pos rfl, hb1, hb2]
      have hfe : (fs.filter fun f =>
          (!(f.name == "blogs.html".toList)) && !(f.name == "blog.html".toList)) =
          fs.filter fun f =>
            !(f.name == "blog.html".toList) && !(f.name == "blogs.html".toList) := by
        apply List.filter_congr
        intro f _
        rw [Bool.and_comm]
      rw [hfe]
      rfl

/-- The report contents as the specification describes them: the names of
the files the substitution pass changed, in enumeration order, followed by
the deleted fixed-name entries in the order checked. -/
def reportSpec (files : List FileEntry) : List Str :=
  ((files.filter fun f => !(processText f.content == f.content)).map fun f => f.name)
    ++ ((if (runPass files).1.any (fun f => f.name == "blog.html".toList)
         then ["blog.html (deleted)".toList] else [])
      ++ (if (runPass files).1.any (fun f => f.name == "blogs.html".toList)
          then ["blogs.html (deleted)".toList] else []))

/-- C1: for every directory state, the write operations the pass performs
are exactly the files whose transformed text differs from the original, each
written with its transformed text; a file whose final text equals its
original text is never rewritten. -/
theorem claim1_writeback_iff_changed (files : List FileEntry) :
    (runPass files).2.1 =
      (files.filter fun f => !(processText f.content == f.content)).map
        fun f => (f.name, processText f.content) :=
  runPass_writes files

/-- C8: on every invocation, independently of the preceding substitution
results, each of blog.html and blogs.html is deleted exactly when an entry
with that name exists, with a report entry of the form name followed by the
deleted suffix; when absent nothing is deleted and nothing is recorded. -/
theorem claim8_fixed_name_deletion (fs : List FileEntry) :
    deleteNames fixedNames fs =
      (fs.filter fun f =>
        !(f.name == "blog.html".toList) && !(f.name == "blogs.html".toList),
       (if fs.any (fun f => f.name == "blog.html".toList)
        then ["blog.html (deleted)".toList] else [])
         ++ (if fs.any (fun f => f.name == "blogs.html".toList)
             then ["blogs.html (deleted)".toList] else [])) :=
  deleteNames_fixed fs

/-- C9: the single final print emits the report entries joined by newlines,
modification entries in enumeration order first and then the fixed-name
deletion entries in the order checked, or exactly the text No changes when
the list is empty. -/
theorem claim9_report_format (files : List FileEntry) :
    (runScript files).output =
      if (reportSpec files).isEmpty then "No changes".toList
      else joinNl (reportSpec files) := by
  have hrep : (runPass files).2.2 ++ (deleteNames fixedNames (runPass files).1).2 =
      reportSpec files := by
    rw [runPass_reports, deleteNames_fixed, reportSpec]
  show (if ((runPass files).2.2 ++ (deleteNames fixedNames (runPass files).1).2).isEmpty
      then "No changes".toList
      else joinNl ((runPass files).2.2 ++ (deleteNames fixedNames (runPass files).1).2)) = _
  rw [hrep]

/-- C10: blog.html matches the glob, so when the rules change its content it
is first rewritten (one write operation with the transformed text, one
modification report entry) and then deleted, so its name appears twice in
the printed report, the second time with the deleted suffix. -/
theorem claim10_processed_then_deleted (c : Str) (h : ¬ processText c = c) :
    (runScript [⟨"blog.html".toList, c⟩]).writeOps
        = [("blog.html".toList, processText c)] ∧
    (runScript [⟨"blog.html".toList, c⟩]).output
        = "blog.html".toList ++ '\n' :: "blog.html (deleted)".toList := by
  have hpass : runPass [⟨"blog.html".toList, c⟩] =
      ([⟨"blog.html".toList, processText c⟩],
       [("blog.html".toList, processText c)], ["blog.html".toList]) := by
    simp only [runPass]
    rw [if_neg h]
  have e1 : ("blog.html".toList == "blog.html".toList) = true := by decide
  have e2 : ("blog.html".toList == "blogs.html".toList) = false := by decide
  have hdel : deleteNames fixedNames [(⟨"blog.html".toList, processText c⟩ : FileEntry)] =
      ([], ["blog.html (deleted)".toList]) := by
    rw [deleteNames_fixed]
    simp [e1, e2]
  have hscript : runScript [⟨"blog.html".toList, c⟩] =
      ⟨[], [("blog.html".toList, processText c)],
       "blog.html".toList ++ '\n' :: "blog.html (deleted)".toList⟩ := by
    simp only [runScript, hpass, hdel]
    simp [joinNl]
  exact ⟨by rw [hscript], by rw [hscript]⟩

/-- Witness for C10 at a concrete changed content. -/
theorem claim10_witness :
    (¬ processText "<h1>Blog</h1>x".toList = "<h1>Blog</h1>x".toList) ∧
    (runScript [⟨"blog.html".toList, "<h1>Blog</h1>x".toList⟩]).output
        = "blog.html".toList ++ '\n' :: "blog.html (deleted)".toList :=
  ⟨by decide, (claim10_processed_then_deleted "<h1>Blog</h1>x".toList (by decide)).2⟩

/-! ### Idempotence -/

/-- All five substitutions the script performs, with their replacements. -/
def allRules : List (List Atom × Str) := rules ++ [(collapsePat, ['\n', '\n'])]

theorem applyRules_eq (s : Str) :
    applyRules s =
      subAll pat4 [] (subAll pat3 [] (subAll pat2 [] (subAll pat1 [] s))) := rfl

/-- C2 counterexample: the transformation is not idempotent.  In this input
the heading rule removes a heading lying inside the anchor text, which
splices together a removable list item, so a second application changes the
text again. -/
theorem claim2_counterexample :
    processText (processText "<li><a href=\"/blog\">Blo<h1>Blog</h1>g</a></li>".toList) ≠
      processText "<li><a href=\"/blog\">Blo<h1>Blog</h1>g</a></li>".toList := by
  decide

/-- C2 amended: when no rule (the four substitutions or the newline
collapse) matches anywhere in the transformed text, a second application of
the transformation leaves it unchanged.  (The unrestricted claim is refuted
by the counterexample: a rule application can splice together new matched
content.) -/
theorem claim2_amended_idempotent (x : Str)
    (h : allRules.all (fun pr => noMatchB pr.1 (processText x)) = true) :
    processText (processText x) = processText x := by
  rw [List.all_eq_true] at h
  have h1 : noMatchB pat1 (processText x) = true :=
    h (pat1, ([] : Str)) (by simp [allRules, rules])
  have h2 : noMatchB pat2 (processText x) = true :=
    h (pat2, ([] : Str)) (by simp [allRules, rules])
  have h3 : noMatchB pat3 (processText x) = true :=
    h (pat3, ([] : Str)) (by simp [allRules, rules])
  have h4 : noMatchB pat4 (processText x) = true :=
    h (pat4, ([] : Str)) (by simp [allRules, rules])
  have h5 : noMatchB collapsePat (processText x) = true :=
    h (collapsePat, ['\n', '\n']) (by simp [allRules, rules])
  show collapse (applyRules (processText x)) = processText x
  rw [applyRules_eq, subAll_eq_self _ h1, subAll_eq_self _ h2, subAll_eq_self _ h3,
    subAll_eq_self _ h4]
  exact subAll_eq_self _ h5

/-- Witness for the amended C2 at a concrete fixed point. -/
theorem claim2_amended_witness :
    (allRules.all (fun pr => noMatchB pr.1 (processText "hello".toList)) = true) ∧
    processText (processText "hello".toList) = processText "hello".toList :=
  ⟨by decide, claim2_amended_idempotent "hello".toList (by decide)⟩

/-! ### The newline collapse -/

theorem char_eq_of_toNat {c d : Char} (h : c.toNat = d.toNat) : c = d := by
  exact Char.ext (by exact UInt32.ext h)

theorem nlChar_eq {c : Char} (h : nlChar c = true) : c = '\n' := by
  rw [nlChar] at h
  have h2 : c.toNat = 10 := by simpa using h
  exact char_eq_of_toNat (by rw [h2]; rfl)

/-- Helper scanning function: keep at most the first two newlines of every
maximal newline run, tracking how many consecutive newlines precede. -/
def collapseGo : Str → Nat → Str
  | [], _ => []
  | c :: cs, seen =>
    if nlChar c then
      (if seen < 2 then c :: collapseGo cs (seen + 1) else collapseGo cs (seen + 1))
    else c :: collapseGo cs 0

theorem collapseGo_nil (seen : Nat) : collapseGo [] seen = [] := rfl

theorem collapseGo_cons (c : Char) (cs : Str) (seen : Nat) :
    collapseGo (c :: cs) seen =
      if nlChar c then
        (if seen < 2 then c :: collapseGo cs (seen + 1) else collapseGo cs (seen + 1))
      else c :: collapseGo cs 0 := rfl

theorem collapseGo_notnl {c : Char} {cs : Str} (seen : Nat) (h : nlChar c = false) :
    collapseGo (c :: cs) seen = c :: collapseGo cs 0 := by
  rw [collapseGo_cons, h]
  simp

theorem collapseGo_nl_lt2 {cs : Str} {seen : Nat} (h : seen < 2) :
    collapseGo ('\n' :: cs) seen = '\n' :: collapseGo cs (seen + 1) := by
  rw [collapseGo_cons, if_pos (by decide : nlChar '\n' = true), if_pos h]

theorem collapseGo_nl_ge2 {cs : Str} {seen : Nat} (h : 2 ≤ seen) :
    collapseGo ('\n' :: cs) seen = collapseGo cs (seen + 1) := by
  rw [collapseGo_cons, if_pos (by decide : nlChar '\n' = true), if_neg (by omega)]

/-- Modelled from the spec's words for the post-processing step: every
maximal run of three or more consecutive newlines contributes exactly two
newlines to the output, runs of one or two newlines are kept unchanged, and
all other characters are kept (each maximal run of length k contributes
min k 2 newlines). -/
def collapseSpec (s : Str) : Str := collapseGo s 0

theorem matchAtoms_collapse (s : Str) :
    matchAtoms collapsePat s =
      if charRun nlChar s < 3 then none else some (charRun nlChar s) := by
  rw [collapsePat]
  simp only [matchAtoms]
  by_cases hk : charRun nlChar s < 3
  · rw [if_pos hk, if_pos hk]
  · rw [if_neg hk, if_neg hk]
    rcases hm : charRun nlChar s - 3 with _ | m
    · rw [tryDown]
      have h3 : charRun nlChar s = 3 := by omega
      rw [h3]
      simp
    · rw [tryDown]
      have h3 : charRun nlChar s = 3 + (m + 1) := by omega
      rw [h3]
      simp

theorem charRun_eq_takeWhile (p : Char → Bool) (s : Str) :
    charRun p s = (s.takeWhile p).length := by
  induction s with
  | nil => rfl
  | cons c cs ih =>
    rw [charRun, List.takeWhile_cons]
    cases hp : p c
    · simp
    · simp [ih]

theorem takeWhile_nl (s : Str) :
    s.takeWhile nlChar = List.replicate (charRun nlChar s) '\n' := by
  rw [charRun_eq_takeWhile]
  exact List.eq_replicate_of_mem fun b hb => nlChar_eq (List.mem_takeWhile_imp hb)

theorem charRun_dropWhile (p : Char → Bool) (s : Str) :
    charRun p (s.dropWhile p) = 0 := by
  induction s with
  | nil => rfl
  | cons c cs ih =>
    rw [List.dropWhile_cons]
    cases hp : p c
    · simp [charRun, hp]
    · simp [ih]

theorem nl_decomp (s : Str) :
    s = List.replicate (charRun nlChar s) '\n' ++ s.dropWhile nlChar := by
  rw [← takeWhile_nl]
  exact (List.takeWhile_append_dropWhile _ _).symm

theorem collapseGo_ge2 : ∀ (s : Str) (a b : Nat), 2 ≤ a → 2 ≤ b →
    collapseGo s a = collapseGo s b := by
  intro s
  induction s with
  | nil => intros; rfl
  | cons c cs ih =>
    intro a b ha hb
    rw [collapseGo_cons, collapseGo_cons]
    cases hc : nlChar c
    · simp [hc]
    · simp only [hc, if_true]
      rw [if_neg (by omega : ¬ a < 2), if_neg (by omega : ¬ b < 2)]
      exact ih (a + 1) (b + 1) (by omega) (by omega)

theorem collapseGo_zero_of_run0 {s : Str} (h : charRun nlChar s = 0) (a : Nat) :
    collapseGo s a = collapseGo s 0 := by
  cases s with
  | nil => rfl
  | cons c cs =>
    have hc : nlChar c = false := by
      cases hc : nlChar c
      · rfl
      · rw [charRun, hc, if_pos rfl] at h; omega
    rw [collapseGo_cons, collapseGo_cons, hc]
    simp

theorem collapseGo_skip (t : Str) : ∀ (m a : Nat), 2 ≤ a →
    collapseGo (List.replicate m '\n' ++ t) a = collapseGo t 2 := by
  intro m
  induction m with
  | zero =>
    intro a ha
    rw [List.replicate_zero, List.nil_append]
    exact collapseGo_ge2 t a 2 ha (le_refl 2)
  | succ m ih =>
    intro a ha
    rw [List.replicate_succ, List.cons_append, collapseGo_nl_ge2 ha]
    exact ih (a + 1) (by omega)

theorem collapse_eq_spec_aux : ∀ (n : Nat) (s : Str), List.length s ≤ n →
    collapse s = collapseSpec s := by
  intro n
  induction n with
  | zero =>
    intro s hs
    have hnil : s = [] := List.length_eq_zero.mp (by omega)
    subst hnil
    exact subAll_nil_of_none _ (by rw [matchAtoms_collapse]; rfl)
  | succ n ih =>
    intro s hs
    rcases hk : charRun nlChar s with _ | k'
    · cases s with
      | nil => exact subAll_nil_of_none _ (by rw [matchAtoms_collapse]; rfl)
      | cons c cs =>
        have hc : nlChar c = false := by
          cases hc : nlChar c
          · rfl
          · rw [charRun, hc, if_pos rfl] at hk; omega
        have hm : matchAtoms collapsePat (c :: cs) = none := by
          rw [matchAtoms_collapse, hk]
          rfl
        have hrec : collapse cs = collapseSpec cs :=
          ih cs (by simp only [List.length_cons] at hs; omega)
        calc collapse (c :: cs) = c :: collapse cs := subAll_cons_of_none _ hm
          _ = c :: collapseSpec cs := by rw [hrec]
          _ = collapseSpec (c :: cs) := by
              show c :: collapseSpec cs = collapseGo (c :: cs) 0
              rw [collapseGo_notnl 0 hc]
              rfl
    · have hdec := nl_decomp s
      set t := s.dropWhile nlChar with hts
      have ht : charRun nlChar t = 0 := charRun_dropWhile _ _
      have hlen : t.length + (k' + 1) = s.length := by
        conv_rhs => rw [hdec]
        rw [List.length_append, List.length_replicate, hk]
        omega
      have hrec : collapse t = collapseSpec t := ih t (by omega)
      by_cases h3 : 3 ≤ k' + 1
      · have hm : matchAtoms collapsePat s = some (k' + 1) := by
          rw [matchAtoms_collapse, hk, if_neg (by omega)]
        have hdrop : s.drop (k' + 1) = t := by
          conv_lhs => rw [hdec, hk]
          have hdl := List.drop_left (List.replicate (k' + 1) '\n') t
          rw [List.length_replicate] at hdl
          exact hdl
        have hgo : collapseSpec s = '\n' :: '\n' :: collapseGo t 2 := by
          rw [collapseSpec]
          conv_lhs => rw [hdec, hk]
          have hk2 : k' + 1 = (k' - 1) + 1 + 1 := by omega
          rw [hk2, List.replicate_succ, List.replicate_succ, List.cons_append,
            List.cons_append, collapseGo_nl_lt2 (by omega), collapseGo_nl_lt2 (by omega)]
          rw [collapseGo_skip t (k' - 1) (0 + 1 + 1) (by omega)]
        have hstep : collapse s = '\n' :: '\n' :: collapse t := by
          show subAll collapsePat ['\n', '\n'] s = _
          rw [subAll_of_pos _ hm, hdrop]
          rfl
        rw [hstep, hgo, hrec, collapseGo_zero_of_run0 ht 2]
        rfl
      · have hk12 : k' = 0 ∨ k' = 1 := by omega
        rcases hk12 with h1 | h2
        · subst h1
          have hshape : s = '\n' :: t := by
            conv_lhs => rw [hdec, hk]
            rfl
          have hm : matchAtoms collapsePat s = none := by
            rw [matchAtoms_collapse, hk, if_pos (by omega)]
          rw [hshape] at hm ⊢
          calc collapse ('\n' :: t) = '\n' :: collapse t := subAll_cons_of_none _ hm
            _ = '\n' :: collapseSpec t := by rw [hrec]
            _ = collapseSpec ('\n' :: t) := by
                show '\n' :: collapseSpec t = collapseGo ('\n' :: t) 0
                rw [collapseGo_nl_lt2 (by omega), collapseGo_zero_of_run0 ht]
                rfl
        · subst h2
          have hshape : s = '\n' :: '\n' :: t := by
            conv_lhs => rw [hdec, hk]
            rfl
          have hm : matchAtoms collapsePat s = none := by
            rw [matchAtoms_collapse, hk, if_pos (by omega)]
          have hrun1 : charRun nlChar ('\n' :: t) = 1 := by
            rw [charRun, if_pos (by decide : nlChar '\n' = true), ht]
          have hm1 : matchAtoms collapsePat ('\n' :: t) = none := by
            rw [matchAtoms_collapse, hrun1, if_pos (by omega)]
          have hc1 : collapse ('\n' :: t) = '\n' :: collapse t :=
            subAll_cons_of_none _ hm1
          rw [hshape] at hm ⊢
          calc collapse ('\n' :: '\n' :: t) = '\n' :: collapse ('\n' :: t) :=
                subAll_cons_of_none _ hm
            _ = '\n' :: '\n' :: collapse t := by rw [hc1]
            _ = '\n' :: '\n' :: collapseSpec t := by rw [hrec]
            _ = collapseSpec ('\n' :: '\n' :: t) := by
                show '\n' :: '\n' :: collapseSpec t = collapseGo ('\n' :: '\n' :: t) 0
                rw [collapseGo_nl_lt2 (by omega), collapseGo_nl_lt2 (by omega),
                  collapseGo_zero_of_run0 ht]
                rfl

/-! ### Step lemmas for symbolic matching -/

theorem match_nil (s : Str) : matchAtoms [] s = some 0 := rfl

theorem match_lit_none {l : List Char} {rest : List Atom} {s : Str}
    (h : ciPref l s = false) : matchAtoms (Atom.lit l :: rest) s = none := by
  simp only [matchAtoms]
  rw [if_neg (by rw [h]; exact Bool.false_ne_true)]

theorem ciPref_append_indep {l : List Char} : ∀ {u : Str}, l.length ≤ u.length →
    ∀ (s : Str), ciPref l (u ++ s) = ciPref l u := by
  induction l with
  | nil => intro u _ s; rfl
  | cons p ps ih =>
    intro u hlen s
    cases u with
    | nil => simp at hlen
    | cons c cs =>
      rw [List.cons_append, ciPref, ciPref,
        ih (by simp only [List.length_cons] at hlen ⊢; omega) s]

theorem match_lit_chunk {l : List Char} {rest : List Atom} (u s : Str)
    (hp : ciPref l u = true) (hlen : u.length = l.length) :
    matchAtoms (Atom.lit l :: rest) (u ++ s) =
      (matchAtoms rest s).map (· + l.length) := by
  simp only [matchAtoms]
  rw [if_pos (by rw [ciPref_append_indep (by omega) s]; exact hp), ← hlen,
    List.drop_left]

theorem match_cls_cons {p : Char → Bool} {rest : List Atom} {c : Char} {cs : Str}
    (h : p c = true) :
    matchAtoms (Atom.cls p :: rest) (c :: cs) = (matchAtoms rest cs).map (· + 1) := by
  simp only [matchAtoms]
  rw [if_pos h]

theorem match_opt_false {p : Char → Bool} {rest : List Atom} {c : Char} {cs : Str}
    (h : p c = false) :
    matchAtoms (Atom.opt p :: rest) (c :: cs) = matchAtoms rest (c :: cs) := by
  simp only [matchAtoms]
  rw [if_neg (by rw [h]; exact Bool.false_ne_true)]

theorem match_star_zero {p : Char → Bool} {rest : List Atom} {s : Str}
    (h : charRun p s = 0) :
    matchAtoms (Atom.star p :: rest) s = matchAtoms rest s := by
  simp only [matchAtoms, h]
  rw [tryDown]
  rw [List.drop_zero]
  cases matchAtoms rest s <;> simp

theorem charRun_zero_of_head {p : Char → Bool} {c : Char} {cs : Str}
    (h : p c = false) : charRun p (c :: cs) = 0 := by
  rw [charRun, h]
  simp

theorem charRun_append_all {p : Char → Bool} : ∀ {u : Str} (w : Str),
    u.all p = true → charRun p (u ++ w) = u.length + charRun p w := by
  intro u
  induction u with
  | nil => intro w _; simp
  | cons c cs ih =>
    intro w hall
    rw [List.all_cons, Bool.and_eq_true] at hall
    rw [List.cons_append, charRun, if_pos hall.1, ih w hall.2, List.length_cons]
    omega

theorem tryDown_top {f : Nat → Option Nat} {m r : Nat} (h : f m = some r) :
    tryDown f m = some r := by
  cases m with
  | zero => exact h
  | succ m => rw [tryDown, h]

theorem match_star_all {p : Char → Bool} {rest : List Atom} {r : Nat} (u w : Str)
    (hall : u.all p = true) (hstop : charRun p w = 0)
    (hres : matchAtoms rest w = some r) :
    matchAtoms (Atom.star p :: rest) (u ++ w) = some (r + u.length) := by
  simp only [matchAtoms]
  rw [charRun_append_all w hall, hstop]
  apply tryDown_top
  rw [Nat.add_zero, List.drop_left, hres]
  rfl

/-- The whitespace-star over a block of spaces followed by non-whitespace. -/
theorem match_star_sp {rest : List Atom} {r : Nat} (n : Nat) (w : Str)
    (hstop : charRun wsChar w = 0) (hres : matchAtoms rest w = some r) :
    matchAtoms (Atom.star wsChar :: rest) (List.replicate n ' ' ++ w) = some (r + n) := by
  have := match_star_all (List.replicate n ' ') w
    (by
      rw [List.all_eq_true]
      intro c hc
      rw [List.eq_of_mem_replicate hc]
      decide)
    hstop hres
  rw [List.length_replicate] at this
  exact this

theorem tryDown_unique {f : Nat → Option Nat} {m j r : Nat}
    (hj : f j = some r) (hle : j ≤ m)
    (hfail : ∀ i, j < i → i ≤ m → f i = none) :
    tryDown f m = some r := by
  induction m with
  | zero =>
    have : j = 0 := by omega
    subst this
    exact hj
  | succ m ih =>
    by_cases hjm : j = m + 1
    · subst hjm
      rw [tryDown, hj]
    · rw [tryDown, hfail (m + 1) (by omega) (le_refl _)]
      exact ih (by omega) fun i h1 h2 => hfail i h1 (by omega)

/-- A greedy class star that must backtrack: the candidate j succeeds and
every larger candidate up to the run length fails. -/
theorem match_star_bt {p : Char → Bool} {rest : List Atom} {s : Str} {j r : Nat}
    (hle : j ≤ charRun p s)
    (hj : matchAtoms rest (s.drop j) = some r)
    (hfail : ∀ i, j < i → i ≤ charRun p s → matchAtoms rest (s.drop i) = none) :
    matchAtoms (Atom.star p :: rest) s = some (r + j) := by
  simp only [matchAtoms]
  exact tryDown_unique (by rw [hj]; rfl) hle
    fun i h1 h2 => by rw [hfail i h1 h2]; rfl

theorem tryUp_unique {f : Nat → Option Nat} {r : Nat} :
    ∀ (fuel i j : Nat), i ≤ fuel → f (j + i) = some r →
      (∀ x, x < i → f (j + x) = none) → tryUp f fuel j = some r := by
  intro fuel
  induction fuel with
  | zero =>
    intro i j hi hfi _
    have : i = 0 := by omega
    subst this
    exact hfi
  | succ fuel ih =>
    intro i j hi hfi hfail
    cases i with
    | zero =>
      rw [Nat.add_zero] at hfi
      rw [tryUp, hfi]
    | succ i =>
      rw [tryUp, (by simpa using hfail 0 (by omega) : f j = none)]
      exact ih i (j + 1) (by omega)
        (by rw [show j + 1 + i = j + (i + 1) by omega]; exact hfi)
        fun x hx => by
          rw [show j + 1 + x = j + (x + 1) by omega]
          exact hfail (x + 1) (by omega)

theorem charRun_any (s : Str) : charRun anyChar s = s.length := by
  induction s with
  | nil => rfl
  | cons c cs ih =>
    rw [charRun, if_pos (show anyChar c = true from rfl), ih, List.length_cons]

/-- A lazy any-character star: the shortest candidate whose continuation
succeeds wins. -/
theorem match_lazy {rest : List Atom} {s : Str} {i r : Nat}
    (hle : i ≤ s.length)
    (hi : matchAtoms rest (s.drop i) = some r)
    (hfail : ∀ x, x < i → matchAtoms rest (s.drop x) = none) :
    matchAtoms (Atom.lazyStar anyChar :: rest) s = some (r + i) := by
  simp only [matchAtoms]
  rw [charRun_any]
  exact tryUp_unique s.length i 0 hle
    (by rw [Nat.zero_add, hi]; rfl)
    (fun x hx => by rw [Nat.zero_add, hfail x hx]; rfl)

/-! ### Character facts through case folding -/

theorem lowN_spec (n : Nat) : lowN n = if 65 ≤ n ∧ n ≤ 90 then n + 32 else n := by
  rw [lowN]
  by_cases h : 65 ≤ n ∧ n ≤ 90
  · rw [if_pos (by simp [h.1, h.2]), if_pos h]
  · rw [if_neg (by simp only [Bool.and_eq_true, decide_eq_true_eq]; exact h), if_neg h]

theorem eqI_lowN {p c : Char} (h : eqI p c = true) :
    lowN c.toNat = lowN p.toNat := by
  rw [eqI] at h
  exact (show lowN p.toNat = lowN c.toNat by simpa using h).symm

theorem eqI_false {p c : Char} (h : lowN p.toNat ≠ lowN c.toNat) : eqI p c = false := by
  rw [eqI]
  exact beq_eq_false_iff_ne.mpr h

/-- When the folded value is not a lowercase letter codepoint, folding was
the identity. -/
theorem lowN_eq_nonletter {n v : Nat} (hv : ¬(97 ≤ v ∧ v ≤ 122)) (h : lowN n = v) :
    n = v := by
  rw [lowN_spec] at h
  by_cases hc : 65 ≤ n ∧ n ≤ 90
  · rw [if_pos hc] at h
    omega
  · rwa [if_neg hc] at h

theorem wsChar_false_of {c : Char}
    (h : ¬(c.toNat = 32 ∨ c.toNat = 9 ∨ c.toNat = 10 ∨ c.toNat = 13 ∨
      c.toNat = 11 ∨ c.toNat = 12)) : wsChar c = false := by
  rw [wsChar]
  simp only [Bool.or_eq_false_iff, beq_eq_false_iff_ne]
  omega

theorem wsChar_false_of_lowN {c : Char} {v : Nat} (h : lowN c.toNat = v)
    (hv : ¬(v = 32 ∨ v = 9 ∨ v = 10 ∨ v = 13 ∨ v = 11 ∨ v = 12)) :
    wsChar c = false := by
  rw [lowN_spec] at h
  apply wsChar_false_of
  by_cases hc : 65 ≤ c.toNat ∧ c.toNat ≤ 90
  · rw [if_pos hc] at h
    omega
  · rw [if_neg hc] at h
    omega

theorem notGt_true_of_lowN {c : Char} {v : Nat} (h : lowN c.toNat = v)
    (hv : v ≠ 62) : notGt c = true := by
  rw [notGt]
  simp only [Bool.not_eq_true', beq_eq_false_iff_ne]
  rw [lowN_spec] at h
  by_cases hc : 65 ≤ c.toNat ∧ c.toNat ≤ 90
  · rw [if_pos hc] at h
    omega
  · rw [if_neg hc] at h
    omega

theorem notQuote_true_of_lowN {c : Char} {v : Nat} (h : lowN c.toNat = v)
    (hv : v ≠ 34) : notQuote c = true := by
  rw [notQuote]
  simp only [Bool.not_eq_true', beq_eq_false_iff_ne]
  rw [lowN_spec] at h
  by_cases hc : 65 ≤ c.toNat ∧ c.toNat ≤ 90
  · rw [if_pos hc] at h
    omega
  · rw [if_neg hc] at h
    omega

theorem nlChar_false_of_lowN {c : Char} {v : Nat} (h : lowN c.toNat = v)
    (hv : v ≠ 10) : nlChar c = false := by
  rw [nlChar]
  simp only [beq_eq_false_iff_ne]
  rw [lowN_spec] at h
  by_cases hc : 65 ≤ c.toNat ∧ c.toNat ≤ 90
  · rw [if_pos hc] at h
    omega
  · rw [if_neg hc] at h
    omega

/-- Check that the text does not begin with a whitespace character. -/
def headNotWs (s : Str) : Bool :=
  match s with
  | [] => true
  | c :: _ => !wsChar c

theorem charRun_zero_of_headNotWs {s : Str} (h : headNotWs s = true) :
    charRun wsChar s = 0 := by
  cases s with
  | nil => rfl
  | cons c cs =>
    rw [headNotWs] at h
    rw [charRun_zero_of_head (by simpa using h)]

/-! ### Matching the heading pattern -/

theorem len4_cases {bl : Str} (h : bl.length = 4) :
    ∃ a b c d, bl = [a, b, c, d] := by
  rcases bl with _ | ⟨a, _ | ⟨b, _ | ⟨c, _ | ⟨d, _ | ⟨e, t⟩⟩⟩⟩⟩
  · simp at h
  · simp at h
  · simp at h
  · simp at h
  · exact ⟨a, b, c, d, rfl⟩
  · simp only [List.length_cons] at h
    omega

/-- The heading element with the given level digit, case variant of the
text Blog, and amounts of inner whitespace. -/
def mkHeading (d : Char) (bl : Str) (m n : Nat) : Str :=
  '<' :: 'h' :: d :: '>' ::
    (List.replicate m ' ' ++ (bl ++ (List.replicate n ' ' ++ ['<', '/', 'h', d, '>'])))

theorem pat4_match (d : Char) (bl : Str) (m n : Nat) (post : Str)
    (hd : d16 d = true)
    (hbl : ciPref ['B', 'l', 'o', 'g'] bl = true) (hlen : bl.length = 4)
    (hpost : headNotWs post = true) :
    matchAtoms pat4 (mkHeading d bl m n ++ post) = some (13 + n + m) := by
  obtain ⟨c1, c2, c3, c4, rfl⟩ := len4_cases hlen
  have hbl2 := hbl
  simp only [ciPref, Bool.and_eq_true, Bool.and_true] at hbl2
  obtain ⟨e1, e2, e3, e4⟩ : eqI 'B' c1 = true ∧ eqI 'l' c2 = true ∧
      eqI 'o' c3 = true ∧ eqI 'g' c4 = true := by
    refine ⟨hbl2.1, hbl2.2.1, hbl2.2.2.1, ?_⟩
    have := hbl2.2.2.2
    simpa using this
  have hws1 : wsChar c1 = false :=
    wsChar_false_of_lowN ((eqI_lowN e1).trans (show lowN 'B'.toNat = 98 from by decide))
      (by decide)
  have h13 : matchAtoms [Atom.star wsChar] post = some 0 := by
    rw [match_star_zero (charRun_zero_of_headNotWs hpost)]
    rfl
  have h12 : matchAtoms [Atom.lit ['>'], Atom.star wsChar] (['>'] ++ post) = some 1 := by
    rw [match_lit_chunk ['>'] post (by decide) (by decide), h13]
    rfl
  have h11 : matchAtoms [Atom.cls d16, Atom.lit ['>'], Atom.star wsChar]
      (d :: (['>'] ++ post)) = some 2 := by
    rw [match_cls_cons hd, h12]
    rfl
  have h10 : matchAtoms
      [Atom.lit ['<', '/', 'h'], Atom.cls d16, Atom.lit ['>'], Atom.star wsChar]
      (['<', '/', 'h'] ++ (d :: (['>'] ++ post))) = some 5 := by
    rw [match_lit_chunk ['<', '/', 'h'] (d :: (['>'] ++ post)) (by decide) (by decide),
      h11]
    rfl
  have h9 : matchAtoms
      (Atom.star wsChar :: Atom.lit ['<', '/', 'h'] :: Atom.cls d16 ::
        Atom.lit ['>'] :: [Atom.star wsChar])
      (List.replicate n ' ' ++ (['<', '/', 'h'] ++ (d :: (['>'] ++ post))))
      = some (5 + n) := by
    rw [match_star_sp n (['<', '/', 'h'] ++ (d :: (['>'] ++ post)))
      (charRun_zero_of_head (by decide)) h10]
  have h8 : matchAtoms
      (Atom.lit ['B', 'l', 'o', 'g'] :: Atom.star wsChar :: Atom.lit ['<', '/', 'h'] ::
        Atom.cls d16 :: Atom.lit ['>'] :: [Atom.star wsChar])
      ([c1, c2, c3, c4] ++
        (List.replicate n ' ' ++ (['<', '/', 'h'] ++ (d :: (['>'] ++ post)))))
      = some (9 + n) := by
    rw [match_lit_chunk [c1, c2, c3, c4]
      (List.replicate n ' ' ++ (['<', '/', 'h'] ++ (d :: (['>'] ++ post)))) hbl rfl, h9]
    simp only [Option.map_some', Option.some.injEq, List.length_cons, List.length_nil]
    omega
  have h7 : matchAtoms
      (Atom.star wsChar :: Atom.lit ['B', 'l', 'o', 'g'] :: Atom.star wsChar ::
        Atom.lit ['<', '/', 'h'] :: Atom.cls d16 :: Atom.lit ['>'] :: [Atom.star wsChar])
      (List.replicate m ' ' ++ ([c1, c2, c3, c4] ++
        (List.replicate n ' ' ++ (['<', '/', 'h'] ++ (d :: (['>'] ++ post))))))
      = some (9 + n + m) := by
    rw [match_star_sp m ([c1, c2, c3, c4] ++
      (List.replicate n ' ' ++ (['<', '/', 'h'] ++ (d :: (['>'] ++ post)))))
      (charRun_zero_of_head hws1) h8]
  have h6 : matchAtoms
      (Atom.lit ['>'] :: Atom.star wsChar :: Atom.lit ['B', 'l', 'o', 'g'] ::
        Atom.star wsChar :: Atom.lit ['<', '/', 'h'] :: Atom.cls d16 ::
        Atom.lit ['>'] :: [Atom.star wsChar])
      (['>'] ++ (List.replicate m ' ' ++ ([c1, c2, c3, c4] ++
        (List.replicate n ' ' ++ (['<', '/', 'h'] ++ (d :: (['>'] ++ post)))))))
      = some (10 + n + m) := by
    rw [match_lit_chunk ['>'] (List.replicate m ' ' ++ ([c1, c2, c3, c4] ++
      (List.replicate n ' ' ++ (['<', '/', 'h'] ++ (d :: (['>'] ++ post))))))
      (by decide) (by decide), h7]
    simp only [Option.map_some', Option.some.injEq, List.length_cons, List.length_nil]
    omega
  have h5 : matchAtoms
      (Atom.star notGt :: Atom.lit ['>'] :: Atom.star wsChar ::
        Atom.lit ['B', 'l', 'o', 'g'] :: Atom.star wsChar :: Atom.lit ['<', '/', 'h'] ::
        Atom.cls d16 :: Atom.lit ['>'] :: [Atom.star wsChar])
      (['>'] ++ (List.replicate m ' ' ++ ([c1, c2, c3, c4] ++
        (List.replicate n ' ' ++ (['<', '/', 'h'] ++ (d :: (['>'] ++ post)))))))
      = some (10 + n + m) := by
    have hz : charRun notGt (['>'] ++ (List.replicate m ' ' ++ ([c1, c2, c3, c4] ++
        (List.replicate n ' ' ++ (['<', '/', 'h'] ++ (d :: (['>'] ++ post))))))) = 0 :=
      charRun_zero_of_head (by decide)
    rw [match_star_zero hz]
    exact h6
  have h4 : matchAtoms
      (Atom.cls d16 :: Atom.star notGt :: Atom.lit ['>'] :: Atom.star wsChar ::
        Atom.lit ['B', 'l', 'o', 'g'] :: Atom.star wsChar :: Atom.lit ['<', '/', 'h'] ::
        Atom.cls d16 :: Atom.lit ['>'] :: [Atom.star wsChar])
      (d :: (['>'] ++ (List.replicate m ' ' ++ ([c1, c2, c3, c4] ++
        (List.replicate n ' ' ++ (['<', '/', 'h'] ++ (d :: (['>'] ++ post))))))))
      = some (11 + n + m) := by
    rw [match_cls_cons hd, h5]
    simp only [Option.map_some', Option.some.injEq]
    omega
  have h3 : matchAtoms
      (Atom.lit ['<', 'h'] :: Atom.cls d16 :: Atom.star notGt :: Atom.lit ['>'] ::
        Atom.star wsChar :: Atom.lit ['B', 'l', 'o', 'g'] :: Atom.star wsChar ::
        Atom.lit ['<', '/', 'h'] :: Atom.cls d16 :: Atom.lit ['>'] :: [Atom.star wsChar])
      (['<', 'h'] ++ (d :: (['>'] ++ (List.replicate m ' ' ++ ([c1, c2, c3, c4] ++
        (List.replicate n ' ' ++ (['<', '/', 'h'] ++ (d :: (['>'] ++ post)))))))))
      = some (13 + n + m) := by
    rw [match_lit_chunk ['<', 'h'] (d :: (['>'] ++ (List.replicate m ' ' ++
      ([c1, c2, c3, c4] ++ (List.replicate n ' ' ++
        (['<', '/', 'h'] ++ (d :: (['>'] ++ post)))))))) (by decide) (by decide), h4]
    simp only [Option.map_some', Option.some.injEq, List.length_cons, List.length_nil]
    omega
  have h2 : matchAtoms
      (Atom.star wsChar :: Atom.lit ['<', 'h'] :: Atom.cls d16 :: Atom.star notGt ::
        Atom.lit ['>'] :: Atom.star wsChar :: Atom.lit ['B', 'l', 'o', 'g'] ::
        Atom.star wsChar :: Atom.lit ['<', '/', 'h'] :: Atom.cls d16 ::
        Atom.lit ['>'] :: [Atom.star wsChar])
      ('<' :: ('h' :: (d :: (['>'] ++ (List.replicate m ' ' ++ ([c1, c2, c3, c4] ++
        (List.replicate n ' ' ++ (['<', '/', 'h'] ++ (d :: (['>'] ++ post))))))))))
      = some (13 + n + m) := by
    rw [match_star_zero (charRun_zero_of_head (by decide))]
    exact h3
  have h1 : matchAtoms
      (Atom.opt nlChar :: Atom.star wsChar :: Atom.lit ['<', 'h'] :: Atom.cls d16 ::
        Atom.star notGt :: Atom.lit ['>'] :: Atom.star wsChar ::
        Atom.lit ['B', 'l', 'o', 'g'] :: Atom.star wsChar :: Atom.lit ['<', '/', 'h'] ::
        Atom.cls d16 :: Atom.lit ['>'] :: [Atom.star wsChar])
      ('<' :: ('h' :: (d :: (['>'] ++ (List.replicate m ' ' ++ ([c1, c2, c3, c4] ++
        (List.replicate n ' ' ++ (['<', '/', 'h'] ++ (d :: (['>'] ++ post))))))))))
      = some (13 + n + m) := by
    rw [match_opt_false (by decide)]
    exact h2
  have htext : mkHeading d [c1, c2, c3, c4] m n ++ post =
      '<' :: ('h' :: (d :: (['>'] ++ (List.replicate m ' ' ++ ([c1, c2, c3, c4] ++
        (List.replicate n ' ' ++ (['<', '/', 'h'] ++ (d :: (['>'] ++ post))))))))) := by
    simp [mkHeading, List.append_assoc]
  rw [htext]
  exact h1

theorem mkHeading_length (d : Char) (bl : Str) (m n : Nat) (hlen : bl.length = 4) :
    (mkHeading d bl m n).length = 13 + n + m := by
  simp [mkHeading, List.length_append, List.length_replicate, hlen]
  omega

/-! ### Helpers for backtracking resolution -/

theorem drop_shift (pre : Str) : ∀ (t : Str) (u : Nat),
    (pre ++ t).drop (pre.length + u) = t.drop u := by
  induction pre with
  | nil => intro t u; simp
  | cons c cs ih =>
    intro t u
    rw [List.cons_append, List.length_cons,
      show cs.length + 1 + u = (cs.length + u) + 1 by omega,
      List.drop_succ_cons, ih]

theorem drop_append_le {u : Nat} {v : Str} (t : Str) (h : u ≤ v.length) :
    (v ++ t).drop u = v.drop u ++ t := by
  induction v generalizing u with
  | nil =>
    simp at h
    subst h
    simp
  | cons c cs ih =>
    cases u with
    | zero => simp
    | succ u =>
      rw [List.cons_append, List.drop_succ_cons, List.drop_succ_cons,
        ih (by simp only [List.length_cons] at h; omega)]

theorem ciPref_false_head {q c : Char} {qs : List Char} {cs : Str}
    (h : eqI q c = false) : ciPref (q :: qs) (c :: cs) = false := by
  rw [ciPref, h]
  rfl

theorem ciPref_false_split : ∀ (n1 : List Char) (w : Str) (q c : Char)
    (n2 : List Char) (rest : Str), n1.length = w.length → eqI q c = false →
    ciPref (n1 ++ (q :: n2)) (w ++ (c :: rest)) = false := by
  intro n1
  induction n1 with
  | nil =>
    intro w q c n2 rest hlen h
    simp only [List.length_nil] at hlen
    have : w = [] := List.length_eq_zero.mp (by omega)
    subst this
    exact ciPref_false_head h
  | cons p n1 ih =>
    intro w q c n2 rest hlen h
    cases w with
    | nil => simp at hlen
    | cons x w =>
      rw [List.cons_append, List.cons_append, ciPref,
        ih w q c n2 rest (by simp only [List.length_cons] at hlen; omega) h,
        Bool.and_false]

theorem all_mono {p q : Char → Bool} (hpq : ∀ c, p c = true → q c = true) :
    ∀ {l : Str}, l.all p = true → l.all q = true := by
  intro l h
  rw [List.all_eq_true] at h ⊢
  exact fun c hc => hpq c (h c hc)

theorem all_drop {p : Char → Bool} {l : Str} (h : l.all p = true) (n : Nat) :
    (l.drop n).all p = true := by
  rw [List.all_eq_true] at h ⊢
  exact fun c hc => h c (List.mem_of_mem_drop hc)

/-- Check that the needle occurs nowhere in the hay, case-insensitively. -/
def ciNoOcc (needle hay : Str) : Bool :=
  (List.range (hay.length + 1)).all fun i => !(ciPref needle (hay.drop i))

theorem ciNoOcc_spec {needle hay : Str} (h : ciNoOcc needle hay = true)
    (hne : needle ≠ []) (i : Nat) : ciPref needle (hay.drop i) = false := by
  by_cases hi : i ≤ hay.length
  · rw [ciNoOcc, List.all_eq_true] at h
    have h2 := h i (List.mem_range.mpr (by omega))
    simpa using h2
  · rw [List.drop_eq_nil_of_le (by omega)]
    cases needle with
    | nil => exact absurd rfl hne
    | cons q qs => rfl

/-- The character class of our href values: no quote, no greater-than sign,
no equals sign. -/
def hrefChar (c : Char) : Bool :=
  notQuote c && notGt c && !(c.toNat == 61)

theorem hrefChar_notQuote {c : Char} (h : hrefChar c = true) : notQuote c = true := by
  rw [hrefChar, Bool.and_eq_true, Bool.and_eq_true] at h
  exact h.1.1

theorem hrefChar_notGt {c : Char} (h : hrefChar c = true) : notGt c = true := by
  rw [hrefChar, Bool.and_eq_true, Bool.and_eq_true] at h
  exact h.1.2

theorem hrefChar_ne61 {c : Char} (h : hrefChar c = true) : c.toNat ≠ 61 := by
  rw [hrefChar, Bool.and_eq_true, Bool.and_eq_true] at h
  have := h.2
  simpa using this

theorem eqI_eq_false_61 {c : Char} (h : c.toNat ≠ 61) : eqI '=' c = false := by
  apply eqI_false
  intro he
  have h61 : lowN '='.toNat = 61 := by decide
  rw [h61] at he
  exact h (lowN_eq_nonletter (by omega) he.symm)

/-- The needle of the href attribute literal fails inside an href value that
is at least five characters long: its equals sign cannot match. -/
theorem hrefNeedle_false_inside (w : Str) (tail : Str)
    (hall : w.all hrefChar = true) (hlen : 5 ≤ w.length) :
    ciPref ['h', 'r', 'e', 'f', '=', '"'] (w ++ tail) = false := by
  rcases w with _ | ⟨x1, _ | ⟨x2, _ | ⟨x3, _ | ⟨x4, _ | ⟨x5, w'⟩⟩⟩⟩⟩
  · simp only [List.length_nil] at hlen
    omega
  · simp only [List.length_cons, List.length_nil] at hlen
    omega
  · simp only [List.length_cons, List.length_nil] at hlen
    omega
  · simp only [List.length_cons, List.length_nil] at hlen
    omega
  · simp only [List.length_cons, List.length_nil] at hlen
    omega
  simp only [List.all_cons, Bool.and_eq_true] at hall
  have h5 : eqI '=' x5 = false := eqI_eq_false_61 (hrefChar_ne61 hall.2.2.2.2.1)
  rw [List.cons_append, List.cons_append, List.cons_append, List.cons_append,
    List.cons_append, ciPref, ciPref, ciPref, ciPref, ciPref, h5]
  simp

/-! ### Resolving the anchor patterns' backtracking stars -/

theorem hrefChar_of_lowN {c : Char} {v : Nat} (h : lowN c.toNat = v)
    (h34 : v ≠ 34) (h62 : v ≠ 62) (h61 : v ≠ 61) : hrefChar c = true := by
  rw [hrefChar, notQuote_true_of_lowN h h34, notGt_true_of_lowN h h62]
  have hne : c.toNat ≠ 61 := by
    intro he
    rw [he, lowN_spec, if_neg (by omega)] at h
    omega
  simp [hne]

/-- The attribute star of the anchor patterns: over a single space followed
by the href literal, the greedy star backtracks down to one character. -/
theorem anchor_star1 (v : Str) (REST : List Atom) (X : Str) (r : Nat)
    (hv : v.all hrefChar = true)
    (hcont : matchAtoms (Atom.lit ['h', 'r', 'e', 'f', '=', '"'] :: REST)
      (['h', 'r', 'e', 'f', '=', '"'] ++ (v ++ (['"'] ++ (['>'] ++ X)))) = some r) :
    matchAtoms
      (Atom.star notGt :: Atom.lit ['h', 'r', 'e', 'f', '=', '"'] :: REST)
      ([' '] ++ (['h', 'r', 'e', 'f', '=', '"'] ++ (v ++ (['"'] ++ (['>'] ++ X)))))
      = some (r + 1) := by
  have hvGt : v.all notGt = true := all_mono (fun c => hrefChar_notGt) hv
  have hq0 : charRun notGt (['>'] ++ X) = 0 := charRun_zero_of_head (by decide)
  have hrun : charRun notGt
      ([' '] ++ (['h', 'r', 'e', 'f', '=', '"'] ++ (v ++ (['"'] ++ (['>'] ++ X)))))
      = 8 + v.length := by
    rw [charRun_append_all _ (by decide), charRun_append_all _ (by decide),
      charRun_append_all _ hvGt, charRun_append_all _ (by decide), hq0]
    simp only [List.length_cons, List.length_nil]
    omega
  apply match_star_bt
  · rw [hrun]
    omega
  · exact hcont
  · intro i h1 h2
    rw [hrun] at h2
    apply match_lit_none
    by_cases h6 : i ≤ 6
    · interval_cases i
      · exact ciPref_false_head (by decide)
      · exact ciPref_false_head (by decide)
      · exact ciPref_false_head (by decide)
      · exact ciPref_false_head (by decide)
      · exact ciPref_false_head (by decide)
    · have heq : ([' '] ++ (['h', 'r', 'e', 'f', '=', '"'] ++ (v ++ (['"'] ++ (['>'] ++ X)))))
          = ([' ', 'h', 'r', 'e', 'f', '=', '"'] : Str) ++ (v ++ (['"'] ++ (['>'] ++ X))) := by
        simp
      have hdp := drop_shift ([' ', 'h', 'r', 'e', 'f', '=', '"'] : Str)
        (v ++ (['"'] ++ (['>'] ++ X))) (i - 7)
      rw [show ([' ', 'h', 'r', 'e', 'f', '=', '"'] : Str).length + (i - 7) = i from by
        simp only [List.length_cons, List.length_nil]
        omega] at hdp
      rw [heq, hdp]
      by_cases hu : i - 7 ≤ v.length
      · rw [drop_append_le _ hu]
        by_cases h5 : 5 ≤ (v.drop (i - 7)).length
        · exact hrefNeedle_false_inside _ _ (all_drop hv _) h5
        · rcases (by omega : (v.drop (i - 7)).length = 0 ∨ (v.drop (i - 7)).length = 1 ∨
              (v.drop (i - 7)).length = 2 ∨ (v.drop (i - 7)).length = 3 ∨
              (v.drop (i - 7)).length = 4) with h | h | h | h | h
          · exact ciPref_false_split [] _ 'h' '"' ['r', 'e', 'f', '=', '"'] _
              (by simp only [List.length_nil]; omega) (by decide)
          · exact ciPref_false_split ['h'] _ 'r' '"' ['e', 'f', '=', '"'] _
              (by simp only [List.length_cons, List.length_nil]; omega) (by decide)
          · exact ciPref_false_split ['h', 'r'] _ 'e' '"' ['f', '=', '"'] _
              (by simp only [List.length_cons, List.length_nil]; omega) (by decide)
          · exact ciPref_false_split ['h', 'r', 'e'] _ 'f' '"' ['=', '"'] _
              (by simp only [List.length_cons, List.length_nil]; omega) (by decide)
          · exact ciPref_false_split ['h', 'r', 'e', 'f'] _ '=' '"' ['"'] _
              (by simp only [List.length_cons, List.length_nil]; omega) (by decide)
      · have hdp2 := drop_shift v (['"'] ++ (['>'] ++ X)) 1
        rw [show i - 7 = v.length + 1 from by omega, hdp2]
        exact ciPref_false_head (by decide)

/-- The value star of the anchor patterns: the greedy star over the href
value backtracks to the start of its last blog occurrence. -/
theorem anchor_star2 (a blv b : Str) (REST : List Atom) (X : Str) (r : Nat)
    (ha : a.all hrefChar = true) (hb : b.all hrefChar = true)
    (hblv : ciPref ['b', 'l', 'o', 'g'] blv = true) (hblvLen : blv.length = 4)
    (hbNo : ciNoOcc ['b', 'l', 'o', 'g'] b = true)
    (hcont : matchAtoms (Atom.lit ['b', 'l', 'o', 'g'] :: REST)
      (blv ++ (b ++ (['"'] ++ (['>'] ++ X)))) = some r) :
    matchAtoms (Atom.star notQuote :: Atom.lit ['b', 'l', 'o', 'g'] :: REST)
      (a ++ (blv ++ (b ++ (['"'] ++ (['>'] ++ X))))) = some (r + a.length) := by
  obtain ⟨d1, d2, d3, d4, rfl⟩ := len4_cases hblvLen
  have hblv2 := hblv
  simp only [ciPref, Bool.and_eq_true, Bool.and_true] at hblv2
  obtain ⟨f1, f2, f3, f4⟩ : eqI 'b' d1 = true ∧ eqI 'l' d2 = true ∧
      eqI 'o' d3 = true ∧ eqI 'g' d4 = true := by
    refine ⟨hblv2.1, hblv2.2.1, hblv2.2.2.1, ?_⟩
    have := hblv2.2.2.2
    simpa using this
  have hl1 : lowN d1.toNat = 98 := (eqI_lowN f1).trans (by decide)
  have hl2 : lowN d2.toNat = 108 := (eqI_lowN f2).trans (by decide)
  have hl3 : lowN d3.toNat = 111 := (eqI_lowN f3).trans (by decide)
  have hl4 : lowN d4.toNat = 103 := (eqI_lowN f4).trans (by decide)
  have hblvQ : ([d1, d2, d3, d4] : Str).all notQuote = true := by
    simp only [List.all_cons, List.all_nil, Bool.and_eq_true, Bool.and_true]
    exact ⟨notQuote_true_of_lowN hl1 (by omega), notQuote_true_of_lowN hl2 (by omega),
      notQuote_true_of_lowN hl3 (by omega), notQuote_true_of_lowN hl4 (by omega)⟩
  have haQ : a.all notQuote = true := all_mono (fun c => hrefChar_notQuote) ha
  have hbQ : b.all notQuote = true := all_mono (fun c => hrefChar_notQuote) hb
  have hq0 : charRun notQuote (['"'] ++ (['>'] ++ X)) = 0 :=
    charRun_zero_of_head (by decide)
  have hrun : charRun notQuote
      (a ++ ([d1, d2, d3, d4] ++ (b ++ (['"'] ++ (['>'] ++ X)))))
      = a.length + 4 + b.length := by
    rw [charRun_append_all _ haQ, charRun_append_all _ hblvQ,
      charRun_append_all _ hbQ, hq0]
    simp only [List.length_cons, List.length_nil]
    omega
  apply match_star_bt
  · rw [hrun]
    omega
  · rw [List.drop_left]
    exact hcont
  · intro i h1 h2
    rw [hrun] at h2
    apply match_lit_none
    have hdp := drop_shift a ([d1, d2, d3, d4] ++ (b ++ (['"'] ++ (['>'] ++ X))))
      (i - a.length)
    rw [show a.length + (i - a.length) = i from by omega] at hdp
    rw [hdp]
    by_cases h3 : i - a.length ≤ 3
    · rcases (by omega : i - a.length = 1 ∨ i - a.length = 2 ∨ i - a.length = 3)
        with h | h | h
      · rw [h]
        exact ciPref_false_head (eqI_false (by rw [hl2]; decide))
      · rw [h]
        exact ciPref_false_head (eqI_false (by rw [hl3]; decide))
      · rw [h]
        exact ciPref_false_head (eqI_false (by rw [hl4]; decide))
    · have hdp2 := drop_shift ([d1, d2, d3, d4] : Str) (b ++ (['"'] ++ (['>'] ++ X)))
        (i - a.length - 4)
      rw [show ([d1, d2, d3, d4] : Str).length + (i - a.length - 4) = i - a.length from by
        simp only [List.length_cons, List.length_nil]
        omega] at hdp2
      rw [hdp2]
      have hw : i - a.length - 4 ≤ b.length := by omega
      rw [drop_append_le _ hw]
      by_cases h4 : 4 ≤ (b.drop (i - a.length - 4)).length
      · rw [ciPref_append_indep (by simp only [List.length_cons, List.length_nil]; omega) _]
        exact ciNoOcc_spec hbNo (by decide) _
      · rcases (by omega : (b.drop (i - a.length - 4)).length = 0 ∨
            (b.drop (i - a.length - 4)).length = 1 ∨
            (b.drop (i - a.length - 4)).length = 2 ∨
            (b.drop (i - a.length - 4)).length = 3) with h | h | h | h
        · exact ciPref_false_split [] _ 'b' '"' ['l', 'o', 'g'] _
            (by simp only [List.length_nil]; omega) (by decide)
        · exact ciPref_false_split ['b'] _ 'l' '"' ['o', 'g'] _
            (by simp only [List.length_cons, List.length_nil]; omega) (by decide)
        · exact ciPref_false_split ['b', 'l'] _ 'o' '"' ['g'] _
            (by simp only [List.length_cons, List.length_nil]; omega) (by decide)
        · exact ciPref_false_split ['b', 'l', 'o'] _ 'g' '"' [] _
            (by simp only [List.length_cons, List.length_nil]; omega) (by decide)

/-- The anchor segment shared by the first two patterns: an a element with a
single space, an href value built around a blog occurrence, and link text
Blog up to case and inner whitespace, followed by an arbitrary
continuation. -/
theorem anchor_seg_match (a blv b blText : Str) (m n : Nat) (REST : List Atom)
    (Y : Str) (r : Nat)
    (ha : a.all hrefChar = true) (hb : b.all hrefChar = true)
    (hblv : ciPref ['b', 'l', 'o', 'g'] blv = true) (hblvLen : blv.length = 4)
    (hbNo : ciNoOcc ['b', 'l', 'o', 'g'] b = true)
    (hbl : ciPref ['B', 'l', 'o', 'g'] blText = true) (hblLen : blText.length = 4)
    (hcont : matchAtoms REST Y = some r) :
    matchAtoms
      (Atom.lit ['<', 'a'] :: Atom.star notGt :: Atom.lit ['h', 'r', 'e', 'f', '=', '"'] ::
        Atom.star notQuote :: Atom.lit ['b', 'l', 'o', 'g'] :: Atom.star notQuote ::
        Atom.lit ['"'] :: Atom.star notGt :: Atom.lit ['>'] :: Atom.star wsChar ::
        Atom.lit ['B', 'l', 'o', 'g'] :: Atom.star wsChar ::
        Atom.lit ['<', '/', 'a', '>'] :: REST)
      (['<', 'a'] ++ ([' '] ++ (['h', 'r', 'e', 'f', '=', '"'] ++ (a ++ (blv ++ (b ++
        (['"'] ++ (['>'] ++ (List.replicate m ' ' ++ (blText ++ (List.replicate n ' ' ++
          (['<', '/', 'a', '>'] ++ Y))))))))))))
      = some (r + 23 + n + m + b.length + a.length) := by
  obtain ⟨t1, t2, t3, t4, rfl⟩ := len4_cases hblLen
  have hbl2 := hbl
  simp only [ciPref, Bool.and_eq_true, Bool.and_true] at hbl2
  obtain ⟨e1, e2, e3, e4⟩ : eqI 'B' t1 = true ∧ eqI 'l' t2 = true ∧
      eqI 'o' t3 = true ∧ eqI 'g' t4 = true := by
    refine ⟨hbl2.1, hbl2.2.1, hbl2.2.2.1, ?_⟩
    have := hbl2.2.2.2
    simpa using this
  have hws1 : wsChar t1 = false :=
    wsChar_false_of_lowN ((eqI_lowN e1).trans (show lowN 'B'.toNat = 98 from by decide))
      (by decide)
  obtain ⟨d1, d2, d3, d4, rfl⟩ := len4_cases hblvLen
  have hblv2 := hblv
  simp only [ciPref, Bool.and_eq_true, Bool.and_true] at hblv2
  obtain ⟨f1, f2, f3, f4⟩ : eqI 'b' d1 = true ∧ eqI 'l' d2 = true ∧
      eqI 'o' d3 = true ∧ eqI 'g' d4 = true := by
    refine ⟨hblv2.1, hblv2.2.1, hblv2.2.2.1, ?_⟩
    have := hblv2.2.2.2
    simpa using this
  have hl1 : lowN d1.toNat = 98 := (eqI_lowN f1).trans (by decide)
  have hl2 : lowN d2.toNat = 108 := (eqI_lowN f2).trans (by decide)
  have hl3 : lowN d3.toNat = 111 := (eqI_lowN f3).trans (by decide)
  have hl4 : lowN d4.toNat = 103 := (eqI_lowN f4).trans (by decide)
  have hblvH : ([d1, d2, d3, d4] : Str).all hrefChar = true := by
    simp only [List.all_cons, List.all_nil, Bool.and_eq_true, Bool.and_true]
    exact ⟨hrefChar_of_lowN hl1 (by omega) (by omega) (by omega),
      hrefChar_of_lowN hl2 (by omega) (by omega) (by omega),
      hrefChar_of_lowN hl3 (by omega) (by omega) (by omega),
      hrefChar_of_lowN hl4 (by omega) (by omega) (by omega)⟩
  have g16 : matchAtoms REST Y = some r := hcont
  have g15 : matchAtoms (Atom.lit ['<', '/', 'a', '>'] :: REST)
      (['<', '/', 'a', '>'] ++ Y) = some (r + 4) := by
    rw [match_lit_chunk ['<', '/', 'a', '>'] Y (by decide) (by decide), g16]
    simp only [Option.map_some', Option.some.injEq, List.length_cons, List.length_nil]
  have g14 : matchAtoms (Atom.star wsChar :: Atom.lit ['<', '/', 'a', '>'] :: REST)
      (List.replicate n ' ' ++ (['<', '/', 'a', '>'] ++ Y)) = some (r + 4 + n) := by
    rw [match_star_sp n (['<', '/', 'a', '>'] ++ Y)
      (charRun_zero_of_head (by decide)) g15]
  have g13 : matchAtoms (Atom.lit ['B', 'l', 'o', 'g'] :: Atom.star wsChar ::
      Atom.lit ['<', '/', 'a', '>'] :: REST)
      ([t1, t2, t3, t4] ++ (List.replicate n ' ' ++ (['<', '/', 'a', '>'] ++ Y)))
      = some (r + 8 + n) := by
    rw [match_lit_chunk [t1, t2, t3, t4]
      (List.replicate n ' ' ++ (['<', '/', 'a', '>'] ++ Y)) hbl rfl, g14]
    simp only [Option.map_some', Option.some.injEq, List.length_cons, List.length_nil]
    omega
  have g12 : matchAtoms (Atom.star wsChar :: Atom.lit ['B', 'l', 'o', 'g'] ::
      Atom.star wsChar :: Atom.lit ['<', '/', 'a', '>'] :: REST)
      (List.replicate m ' ' ++ ([t1, t2, t3, t4] ++ (List.replicate n ' ' ++
        (['<', '/', 'a', '>'] ++ Y)))) = some (r + 8 + n + m) := by
    rw [match_star_sp m ([t1, t2, t3, t4] ++ (List.replicate n ' ' ++
      (['<', '/', 'a', '>'] ++ Y))) (charRun_zero_of_head hws1) g13]
  have g11 : matchAtoms (Atom.lit ['>'] :: Atom.star wsChar ::
      Atom.lit ['B', 'l', 'o', 'g'] :: Atom.star wsChar ::
      Atom.lit ['<', '/', 'a', '>'] :: REST)
      (['>'] ++ (List.replicate m ' ' ++ ([t1, t2, t3, t4] ++ (List.replicate n ' ' ++
        (['<', '/', 'a', '>'] ++ Y))))) = some (r + 9 + n + m) := by
    rw [match_lit_chunk ['>'] (List.replicate m ' ' ++ ([t1, t2, t3, t4] ++
      (List.replicate n ' ' ++ (['<', '/', 'a', '>'] ++ Y)))) (by decide) (by decide),
      g12]
    simp only [Option.map_some', Option.some.injEq, List.length_cons, List.length_nil]
    omega
  have g10 : matchAtoms (Atom.star notGt :: Atom.lit ['>'] :: Atom.star wsChar ::
      Atom.lit ['B', 'l', 'o', 'g'] :: Atom.star wsChar ::
      Atom.lit ['<', '/', 'a', '>'] :: REST)
      (['>'] ++ (List.replicate m ' ' ++ ([t1, t2, t3, t4] ++ (List.replicate n ' ' ++
        (['<', '/', 'a', '>'] ++ Y))))) = some (r + 9 + n + m) := by
    have hz : charRun notGt (['>'] ++ (List.replicate m ' ' ++ ([t1, t2, t3, t4] ++
        (List.replicate n ' ' ++ (['<', '/', 'a', '>'] ++ Y))))) = 0 :=
      charRun_zero_of_head (by decide)
    rw [match_star_zero hz]
    exact g11
  have g9 : matchAtoms (Atom.lit ['"'] :: Atom.star notGt :: Atom.lit ['>'] ::
      Atom.star wsChar :: Atom.lit ['B', 'l', 'o', 'g'] :: Atom.star wsChar ::
      Atom.lit ['<', '/', 'a', '>'] :: REST)
      (['"'] ++ (['>'] ++ (List.replicate m ' ' ++ ([t1, t2, t3, t4] ++
        (List.replicate n ' ' ++ (['<', '/', 'a', '>'] ++ Y))))))
      = some (r + 10 + n + m) := by
    rw [match_lit_chunk ['"'] (['>'] ++ (List.replicate m ' ' ++ ([t1, t2, t3, t4] ++
      (List.replicate n ' ' ++ (['<', '/', 'a', '>'] ++ Y))))) (by decide) (by decide),
      g10]
    simp only [Option.map_some', Option.some.injEq, List.length_cons, List.length_nil]
    omega
  have g8 : matchAtoms (Atom.star notQuote :: Atom.lit ['"'] :: Atom.star notGt ::
      Atom.lit ['>'] :: Atom.star wsChar :: Atom.lit ['B', 'l', 'o', 'g'] ::
      Atom.star wsChar :: Atom.lit ['<', '/', 'a', '>'] :: REST)
      (b ++ (['"'] ++ (['>'] ++ (List.replicate m ' ' ++ ([t1, t2, t3, t4] ++
        (List.replicate n ' ' ++ (['<', '/', 'a', '>'] ++ Y)))))))
      = some (r + 10 + n + m + b.length) := by
    have := match_star_all b (['"'] ++ (['>'] ++ (List.replicate m ' ' ++
      ([t1, t2, t3, t4] ++ (List.replicate n ' ' ++ (['<', '/', 'a', '>'] ++ Y))))))
      (all_mono (fun c => hrefChar_notQuote) hb)
      (charRun_zero_of_head (by decide)) g9
    rw [this]
  have g7 : matchAtoms (Atom.lit ['b', 'l', 'o', 'g'] :: Atom.star notQuote ::
      Atom.lit ['"'] :: Atom.star notGt :: Atom.lit ['>'] :: Atom.star wsChar ::
      Atom.lit ['B', 'l', 'o', 'g'] :: Atom.star wsChar ::
      Atom.lit ['<', '/', 'a', '>'] :: REST)
      ([d1, d2, d3, d4] ++ (b ++ (['"'] ++ (['>'] ++ (List.replicate m ' ' ++
        ([t1, t2, t3, t4] ++ (List.replicate n ' ' ++ (['<', '/', 'a', '>'] ++ Y))))))))
      = some (r + 14 + n + m + b.length) := by
    rw [match_lit_chunk [d1, d2, d3, d4] (b ++ (['"'] ++ (['>'] ++
      (List.replicate m ' ' ++ ([t1, t2, t3, t4] ++ (List.replicate n ' ' ++
        (['<', '/', 'a', '>'] ++ Y))))))) hblv rfl, g8]
    simp only [Option.map_some', Option.some.injEq, List.length_cons, List.length_nil]
    omega
  have g6 : matchAtoms (Atom.star notQuote :: Atom.lit ['b', 'l', 'o', 'g'] ::
      Atom.star notQuote :: Atom.lit ['"'] :: Atom.star notGt :: Atom.lit ['>'] ::
      Atom.star wsChar :: Atom.lit ['B', 'l', 'o', 'g'] :: Atom.star wsChar ::
      Atom.lit ['<', '/', 'a', '>'] :: REST)
      (a ++ ([d1, d2, d3, d4] ++ (b ++ (['"'] ++ (['>'] ++ (List.replicate m ' ' ++
        ([t1, t2, t3, t4] ++ (List.replicate n ' ' ++ (['<', '/', 'a', '>'] ++ Y)))))))))
      = some (r + 14 + n + m + b.length + a.length) := by
    rw [anchor_star2 a [d1, d2, d3, d4] b _ _ _ ha hb hblv rfl hbNo g7]
  have hassoc : (a ++ ([d1, d2, d3, d4] ++ b)) ++ (['"'] ++ (['>'] ++
      (List.replicate m ' ' ++ ([t1, t2, t3, t4] ++ (List.replicate n ' ' ++
        (['<', '/', 'a', '>'] ++ Y))))))
      = a ++ ([d1, d2, d3, d4] ++ (b ++ (['"'] ++ (['>'] ++ (List.replicate m ' ' ++
        ([t1, t2, t3, t4] ++ (List.replicate n ' ' ++ (['<', '/', 'a', '>'] ++ Y)))))))) := by
    simp [List.append_assoc]
  have g5 : matchAtoms (Atom.lit ['h', 'r', 'e', 'f', '=', '"'] :: Atom.star notQuote ::
      Atom.lit ['b', 'l', 'o', 'g'] :: Atom.star notQuote :: Atom.lit ['"'] ::
      Atom.star notGt :: Atom.lit ['>'] :: Atom.star wsChar ::
      Atom.lit ['B', 'l', 'o', 'g'] :: Atom.star wsChar ::
      Atom.lit ['<', '/', 'a', '>'] :: REST)
      (['h', 'r', 'e', 'f', '=', '"'] ++ ((a ++ ([d1, d2, d3, d4] ++ b)) ++ (['"'] ++
        (['>'] ++ (List.replicate m ' ' ++ ([t1, t2, t3, t4] ++ (List.replicate n ' ' ++
          (['<', '/', 'a', '>'] ++ Y))))))))
      = some (r + 20 + n + m + b.length + a.length) := by
    rw [hassoc]
    rw [match_lit_chunk ['h', 'r', 'e', 'f', '=', '"']
      (a ++ ([d1, d2, d3, d4] ++ (b ++ (['"'] ++ (['>'] ++ (List.replicate m ' ' ++
        ([t1, t2, t3, t4] ++ (List.replicate n ' ' ++ (['<', '/', 'a', '>'] ++ Y)))))))))
      (by decide) (by decide), g6]
    simp only [Option.map_some', Option.some.injEq, List.length_cons, List.length_nil]
    omega
  have hvAll : (a ++ ([d1, d2, d3, d4] ++ b)).all hrefChar = true := by
    rw [List.all_append, List.all_append]
    simp only [Bool.and_eq_true]
    exact ⟨ha, hblvH, hb⟩
  have g4 : matchAtoms (Atom.star notGt :: Atom.lit ['h', 'r', 'e', 'f', '=', '"'] ::
      Atom.star notQuote :: Atom.lit ['b', 'l', 'o', 'g'] :: Atom.star notQuote ::
      Atom.lit ['"'] :: Atom.star notGt :: Atom.lit ['>'] :: Atom.star wsChar ::
      Atom.lit ['B', 'l', 'o', 'g'] :: Atom.star wsChar ::
      Atom.lit ['<', '/', 'a', '>'] :: REST)
      ([' '] ++ (['h', 'r', 'e', 'f', '=', '"'] ++ (a ++ ([d1, d2, d3, d4] ++ (b ++
        (['"'] ++ (['>'] ++ (List.replicate m ' ' ++ ([t1, t2, t3, t4] ++
          (List.replicate n ' ' ++ (['<', '/', 'a', '>'] ++ Y)))))))))))
      = some (r + 20 + n + m + b.length + a.length + 1) := by
    have hstep := anchor_star1 (a ++ ([d1, d2, d3, d4] ++ b)) _
      (List.replicate m ' ' ++ ([t1, t2, t3, t4] ++ (List.replicate n ' ' ++
        (['<', '/', 'a', '>'] ++ Y)))) _ hvAll g5
    rw [hassoc] at hstep
    exact hstep
  have g3 : matchAtoms (Atom.lit ['<', 'a'] :: Atom.star notGt ::
      Atom.lit ['h', 'r', 'e', 'f', '=', '"'] :: Atom.star notQuote ::
      Atom.lit ['b', 'l', 'o', 'g'] :: Atom.star notQuote :: Atom.lit ['"'] ::
      Atom.star notGt :: Atom.lit ['>'] :: Atom.star wsChar ::
      Atom.lit ['B', 'l', 'o', 'g'] :: Atom.star wsChar ::
      Atom.lit ['<', '/', 'a', '>'] :: REST)
      (['<', 'a'] ++ ([' '] ++ (['h', 'r', 'e', 'f', '=', '"'] ++ (a ++
        ([d1, d2, d3, d4] ++ (b ++ (['"'] ++ (['>'] ++ (List.replicate m ' ' ++
          ([t1, t2, t3, t4] ++ (List.replicate n ' ' ++ (['<', '/', 'a', '>'] ++ Y))))))))))))
      = some (r + 23 + n + m + b.length + a.length) := by
    rw [match_lit_chunk ['<', 'a'] ([' '] ++ (['h', 'r', 'e', 'f', '=', '"'] ++ (a ++
      ([d1, d2, d3, d4] ++ (b ++ (['"'] ++ (['>'] ++ (List.replicate m ' ' ++
        ([t1, t2, t3, t4] ++ (List.replicate n ' ' ++ (['<', '/', 'a', '>'] ++ Y)))))))))))
      (by decide) (by decide), g4]
    simp only [Option.map_some', Option.some.injEq, List.length_cons, List.length_nil]
    omega
  exact g3

/-- The canonical standalone blog anchor: the opening tag with the href
value split as a prefix, a blog occurrence, and a suffix, then link text
Blog with inner whitespace amounts, and the closing tag. -/
def mkAnchor (a blv b blText : Str) (m n : Nat) : Str :=
  '<' :: 'a' :: ' ' :: 'h' :: 'r' :: 'e' :: 'f' :: '=' :: '"' ::
    (a ++ (blv ++ (b ++ ('"' :: '>' ::
      (List.replicate m ' ' ++ (blText ++ (List.replicate n ' ' ++ ['<', '/', 'a', '>'])))))))

theorem mkAnchor_length (a blv b blText : Str) (m n : Nat)
    (hblvLen : blv.length = 4) (hblLen : blText.length = 4) :
    (mkAnchor a blv b blText m n).length = 23 + n + m + b.length + a.length := by
  simp [mkAnchor, List.length_append, List.length_replicate, hblvLen, hblLen]
  omega

/-- The second pattern matches the canonical standalone blog anchor when
the following text does not begin with whitespace, consuming exactly the
anchor. -/
theorem pat2_match (a blv b blText : Str) (m n : Nat) (post : Str)
    (ha : a.all hrefChar = true) (hb : b.all hrefChar = true)
    (hblv : ciPref ['b', 'l', 'o', 'g'] blv = true) (hblvLen : blv.length = 4)
    (hbNo : ciNoOcc ['b', 'l', 'o', 'g'] b = true)
    (hbl : ciPref ['B', 'l', 'o', 'g'] blText = true) (hblLen : blText.length = 4)
    (hpost : headNotWs post = true) :
    matchAtoms pat2 (mkAnchor a blv b blText m n ++ post)
      = some (23 + n + m + b.length + a.length) := by
  have hcont : matchAtoms [Atom.star wsChar] post = some 0 := by
    rw [match_star_zero (charRun_zero_of_headNotWs hpost)]
    rfl
  have hseg := anchor_seg_match a blv b blText m n [Atom.star wsChar] post 0
    ha hb hblv hblvLen hbNo hbl hblLen hcont
  have hseg2 : matchAtoms
      (Atom.lit ['<', 'a'] :: Atom.star notGt :: Atom.lit ['h', 'r', 'e', 'f', '=', '"'] ::
      Atom.star notQuote :: Atom.lit ['b', 'l', 'o', 'g'] :: Atom.star notQuote ::
      Atom.lit ['"'] :: Atom.star notGt :: Atom.lit ['>'] :: Atom.star wsChar ::
      Atom.lit ['B', 'l', 'o', 'g'] :: Atom.star wsChar ::
      Atom.lit ['<', '/', 'a', '>'] ::
      [Atom.star wsChar])
      ('<' :: ('a' :: (' ' :: ('h' :: ('r' :: ('e' :: ('f' :: ('=' :: ('"' :: (a ++ (blv ++ 
       (b ++ ('"' :: ('>' :: (List.replicate m ' ' ++ (blText ++ (List.replicate n ' ' ++ 
       ('<' :: ('/' :: ('a' :: ('>' :: (post))))))))))))))))))))))
      = some (23 + n + m + b.length + a.length) := by
    have h0 : (0 : Nat) + 23 + n + m + b.length + a.length
        = 23 + n + m + b.length + a.length := by omega
    rw [← h0]
    exact hseg
  have htext : mkAnchor a blv b blText m n ++ post =
      '<' :: ('a' :: (' ' :: ('h' :: ('r' :: ('e' :: ('f' :: ('=' :: ('"' :: (a ++ (blv ++ 
      (b ++ ('"' :: ('>' :: (List.replicate m ' ' ++ (blText ++ (List.replicate n ' ' ++ 
      ('<' :: ('/' :: ('a' :: ('>' :: (post))))))))))))))))))))) := by
    simp [mkAnchor, List.append_assoc]
  rw [htext]
  show matchAtoms (Atom.opt nlChar :: Atom.star wsChar ::
    Atom.lit ['<', 'a'] :: Atom.star notGt :: Atom.lit ['h', 'r', 'e', 'f', '=', '"'] ::
      Atom.star notQuote :: Atom.lit ['b', 'l', 'o', 'g'] :: Atom.star notQuote ::
      Atom.lit ['"'] :: Atom.star notGt :: Atom.lit ['>'] :: Atom.star wsChar ::
      Atom.lit ['B', 'l', 'o', 'g'] :: Atom.star wsChar ::
      Atom.lit ['<', '/', 'a', '>'] ::
    [Atom.star wsChar]) _ = _
  rw [match_opt_false (show nlChar '<' = false from by decide)]
  rw [match_star_zero (charRun_zero_of_head (show wsChar '<' = false from by decide))]
  exact hseg2

/-- The canonical blog list item: the anchor wrapped in a plain li
element. -/
def mkLi (a blv b blText : Str) (m n : Nat) : Str :=
  '<' :: 'l' :: 'i' :: '>' :: (mkAnchor a blv b blText m n ++ ['<', '/', 'l', 'i', '>'])

theorem mkLi_length (a blv b blText : Str) (m n : Nat)
    (hblvLen : blv.length = 4) (hblLen : blText.length = 4) :
    (mkLi a blv b blText m n).length = 32 + n + m + b.length + a.length := by
  simp [mkLi, List.length_append, mkAnchor_length a blv b blText m n hblvLen hblLen]
  omega

/-- The first pattern matches the canonical blog list item when the
following text does not begin with whitespace, consuming exactly the
item. -/
theorem pat1_match (a blv b blText : Str) (m n : Nat) (post : Str)
    (ha : a.all hrefChar = true) (hb : b.all hrefChar = true)
    (hblv : ciPref ['b', 'l', 'o', 'g'] blv = true) (hblvLen : blv.length = 4)
    (hbNo : ciNoOcc ['b', 'l', 'o', 'g'] b = true)
    (hbl : ciPref ['B', 'l', 'o', 'g'] blText = true) (hblLen : blText.length = 4)
    (hpost : headNotWs post = true) :
    matchAtoms pat1 (mkLi a blv b blText m n ++ post)
      = some (32 + n + m + b.length + a.length) := by
  have hc3 : matchAtoms [Atom.star wsChar] post = some 0 := by
    rw [match_star_zero (charRun_zero_of_headNotWs hpost)]
    rfl
  have hc2 : matchAtoms [Atom.lit ['<', '/', 'l', 'i', '>'], Atom.star wsChar]
      (['<', '/', 'l', 'i', '>'] ++ post) = some 5 := by
    rw [match_lit_chunk ['<', '/', 'l', 'i', '>'] post (by decide) (by decide), hc3]
    rfl
  have hcont : matchAtoms
      [Atom.star wsChar, Atom.lit ['<', '/', 'l', 'i', '>'], Atom.star wsChar]
      (['<', '/', 'l', 'i', '>'] ++ post) = some 5 := by
    have hz : charRun wsChar (['<', '/', 'l', 'i', '>'] ++ post) = 0 :=
      charRun_zero_of_head (by decide)
    rw [match_star_zero hz]
    exact hc2
  have hseg := anchor_seg_match a blv b blText m n
    [Atom.star wsChar, Atom.lit ['<', '/', 'l', 'i', '>'], Atom.star wsChar]
    (['<', '/', 'l', 'i', '>'] ++ post) 5
    ha hb hblv hblvLen hbNo hbl hblLen hcont
  have hseg2 : matchAtoms
      (Atom.lit ['<', 'a'] :: Atom.star notGt :: Atom.lit ['h', 'r', 'e', 'f', '=', '"'] ::
      Atom.star notQuote :: Atom.lit ['b', 'l', 'o', 'g'] :: Atom.star notQuote ::
      Atom.lit ['"'] :: Atom.star notGt :: Atom.lit ['>'] :: Atom.star wsChar ::
      Atom.lit ['B', 'l', 'o', 'g'] :: Atom.star wsChar ::
      Atom.lit ['<', '/', 'a', '>'] ::
      [Atom.star wsChar, Atom.lit ['<', '/', 'l', 'i', '>'], Atom.star wsChar])
      ('<' :: ('a' :: (' ' :: ('h' :: ('r' :: ('e' :: ('f' :: ('=' :: ('"' :: (a ++ (blv ++ 
       (b ++ ('"' :: ('>' :: (List.replicate m ' ' ++ (blText ++ (List.replicate n ' ' ++ 
       ('<' :: ('/' :: ('a' :: ('>' :: (['<', '/', 'l', 'i', '>'] ++ 
       (post)))))))))))))))))))))))
      = some (28 + n + m + b.length + a.length) := by
    have h0 : (5 : Nat) + 23 + n + m + b.length + a.length
        = 28 + n + m + b.length + a.length := by omega
    rw [← h0]
    exact hseg
  have hk1 : matchAtoms
      (Atom.lit ['>'] :: Atom.star wsChar ::
      Atom.lit ['<', 'a'] :: Atom.star notGt :: Atom.lit ['h', 'r', 'e', 'f', '=', '"'] ::
      Atom.star notQuote :: Atom.lit ['b', 'l', 'o', 'g'] :: Atom.star notQuote ::
      Atom.lit ['"'] :: Atom.star notGt :: Atom.lit ['>'] :: Atom.star wsChar ::
      Atom.lit ['B', 'l', 'o', 'g'] :: Atom.star wsChar ::
      Atom.lit ['<', '/', 'a', '>'] ::
      [Atom.star wsChar, Atom.lit ['<', '/', 'l', 'i', '>'], Atom.star wsChar])
      (['>'] ++ ('<' :: ('a' :: (' ' :: ('h' :: ('r' :: ('e' :: ('f' :: ('=' :: ('"' :: 
       (a ++ (blv ++ (b ++ ('"' :: ('>' :: (List.replicate m ' ' ++ (blText ++ 
       (List.replicate n ' ' ++ ('<' :: ('/' :: ('a' :: ('>' :: 
       (['<', '/', 'l', 'i', '>'] ++ (post))))))))))))))))))))))))
      = some (29 + n + m + b.length + a.length) := by
    have hz : charRun wsChar
        ('<' :: ('a' :: (' ' :: ('h' :: ('r' :: ('e' :: ('f' :: ('=' :: ('"' :: (a ++ 
         (blv ++ (b ++ ('"' :: ('>' :: (List.replicate m ' ' ++ (blText ++ 
         (List.replicate n ' ' ++ ('<' :: ('/' :: ('a' :: ('>' :: 
         (['<', '/', 'l', 'i', '>'] ++ (post))))))))))))))))))))))) = 0 :=
      charRun_zero_of_head (by decide)
    rw [match_lit_chunk ['>']
      ('<' :: ('a' :: (' ' :: ('h' :: ('r' :: ('e' :: ('f' :: ('=' :: ('"' :: (a ++ (blv ++ 
       (b ++ ('"' :: ('>' :: (List.replicate m ' ' ++ (blText ++ (List.replicate n ' ' ++ 
       ('<' :: ('/' :: ('a' :: ('>' :: (['<', '/', 'l', 'i', '>'] ++ 
       (post)))))))))))))))))))))))
      (by decide) (by decide)]
    rw [match_star_zero hz, hseg2]
    simp only [Option.map_some', Option.some.injEq, List.length_cons, List.length_nil]
    omega
  have hk1b : matchAtoms
      (Atom.star notGt :: Atom.lit ['>'] :: Atom.star wsChar ::
      Atom.lit ['<', 'a'] :: Atom.star notGt :: Atom.lit ['h', 'r', 'e', 'f', '=', '"'] ::
      Atom.star notQuote :: Atom.lit ['b', 'l', 'o', 'g'] :: Atom.star notQuote ::
      Atom.lit ['"'] :: Atom.star notGt :: Atom.lit ['>'] :: Atom.star wsChar ::
      Atom.lit ['B', 'l', 'o', 'g'] :: Atom.star wsChar ::
      Atom.lit ['<', '/', 'a', '>'] ::
      [Atom.star wsChar, Atom.lit ['<', '/', 'l', 'i', '>'], Atom.star wsChar])
      (['>'] ++ ('<' :: ('a' :: (' ' :: ('h' :: ('r' :: ('e' :: ('f' :: ('=' :: ('"' :: 
       (a ++ (blv ++ (b ++ ('"' :: ('>' :: (List.replicate m ' ' ++ (blText ++ 
       (List.replicate n ' ' ++ ('<' :: ('/' :: ('a' :: ('>' :: 
       (['<', '/', 'l', 'i', '>'] ++ (post))))))))))))))))))))))))
      = some (29 + n + m + b.length + a.length) := by
    have hz : charRun notGt
        (['>'] ++ ('<' :: ('a' :: (' ' :: ('h' :: ('r' :: ('e' :: ('f' :: ('=' :: ('"' :: 
         (a ++ (blv ++ (b ++ ('"' :: ('>' :: (List.replicate m ' ' ++ (blText ++ 
         (List.replicate n ' ' ++ ('<' :: ('/' :: ('a' :: ('>' :: 
         (['<', '/', 'l', 'i', '>'] ++ (post)))))))))))))))))))))))) = 0 :=
      charRun_zero_of_head (by decide)
    rw [match_star_zero hz]
    exact hk1
  have hk2 : matchAtoms
      (Atom.lit ['<', 'l', 'i'] :: Atom.star notGt :: Atom.lit ['>'] :: Atom.star wsChar ::
      Atom.lit ['<', 'a'] :: Atom.star notGt :: Atom.lit ['h', 'r', 'e', 'f', '=', '"'] ::
      Atom.star notQuote :: Atom.lit ['b', 'l', 'o', 'g'] :: Atom.star notQuote ::
      Atom.lit ['"'] :: Atom.star notGt :: Atom.lit ['>'] :: Atom.star wsChar ::
      Atom.lit ['B', 'l', 'o', 'g'] :: Atom.star wsChar ::
      Atom.lit ['<', '/', 'a', '>'] ::
      [Atom.star wsChar, Atom.lit ['<', '/', 'l', 'i', '>'], Atom.star wsChar])
      (['<', 'l', 'i'] ++ (['>'] ++ ('<' :: ('a' :: (' ' :: ('h' :: ('r' :: ('e' :: ('f' :: 
       ('=' :: ('"' :: (a ++ (blv ++ (b ++ ('"' :: ('>' :: (List.replicate m ' ' ++ 
       (blText ++ (List.replicate n ' ' ++ ('<' :: ('/' :: ('a' :: ('>' :: 
       (['<', '/', 'l', 'i', '>'] ++ (post)))))))))))))))))))))))))
      = some (32 + n + m + b.length + a.length) := by
    rw [match_lit_chunk ['<', 'l', 'i']
      (['>'] ++ ('<' :: ('a' :: (' ' :: ('h' :: ('r' :: ('e' :: ('f' :: ('=' :: ('"' :: 
       (a ++ (blv ++ (b ++ ('"' :: ('>' :: (List.replicate m ' ' ++ (blText ++ 
       (List.replicate n ' ' ++ ('<' :: ('/' :: ('a' :: ('>' :: 
       (['<', '/', 'l', 'i', '>'] ++ (post))))))))))))))))))))))))
      (by decide) (by decide)]
    rw [hk1b]
    simp only [Option.map_some', Option.some.injEq, List.length_cons, List.length_nil]
    omega
  have htext : mkLi a blv b blText m n ++ post =
      '<' :: ('l' :: ('i' :: (['>'] ++ ('<' :: ('a' :: (' ' :: ('h' :: ('r' ::
      ('e' :: ('f' :: ('=' :: ('"' :: (a ++ (blv ++ (b ++ ('"' :: ('>' :: 
      (List.replicate m ' ' ++ (blText ++ (List.replicate n ' ' ++ ('<' :: ('/' :: ('a' :: 
      ('>' :: (['<', '/', 'l', 'i', '>'] ++ (post)))))))))))))))))))))))))) := by
    simp [mkLi, mkAnchor, List.append_assoc]
  rw [htext]
  show matchAtoms (Atom.opt nlChar :: Atom.star wsChar :: Atom.lit ['<', 'l', 'i'] ::
    Atom.star notGt :: Atom.lit ['>'] :: Atom.star wsChar ::
    Atom.lit ['<', 'a'] :: Atom.star notGt :: Atom.lit ['h', 'r', 'e', 'f', '=', '"'] ::
      Atom.star notQuote :: Atom.lit ['b', 'l', 'o', 'g'] :: Atom.star notQuote ::
      Atom.lit ['"'] :: Atom.star notGt :: Atom.lit ['>'] :: Atom.star wsChar ::
      Atom.lit ['B', 'l', 'o', 'g'] :: Atom.star wsChar ::
      Atom.lit ['<', '/', 'a', '>'] ::
    [Atom.star wsChar, Atom.lit ['<', '/', 'l', 'i', '>'], Atom.star wsChar]) _ = _
  rw [match_opt_false (show nlChar '<' = false from by decide)]
  rw [match_star_zero (charRun_zero_of_head (show wsChar '<' = false from by decide))]
  exact hk2

/-- Check that no case-insensitive occurrence of the needle starts at a
position lying inside the given prefix of the text formed by appending the
rest. -/
def ciNoPrefInsideB (needle pre rest : Str) : Bool :=
  (List.range pre.length).all fun i => !(ciPref needle ((pre ++ rest).drop i))

theorem ciNoPrefInsideB_spec {needle pre rest : Str}
    (h : ciNoPrefInsideB needle pre rest = true) :
    ∀ i, i < pre.length → ciPref needle ((pre ++ rest).drop i) = false := by
  intro i hi
  rw [ciNoPrefInsideB, List.all_eq_true] at h
  have h2 := h i (List.mem_range.mpr hi)
  simpa using h2

theorem match_alt_left {x y : List Char} {rest : List Atom} {s : Str} {r : Nat}
    (hp : ciPref x s = true)
    (hres : matchAtoms rest (s.drop x.length) = some r) :
    matchAtoms (Atom.alt x y :: rest) s = some (r + x.length) := by
  simp only [matchAtoms]
  rw [if_pos hp, hres]
  rfl

theorem match_alt_right {x y : List Char} {rest : List Atom} {s : Str} {r : Nat}
    (hx : ciPref x s = false) (hp : ciPref y s = true)
    (hres : matchAtoms rest (s.drop y.length) = some r) :
    matchAtoms (Atom.alt x y :: rest) s = some (r + y.length) := by
  simp only [matchAtoms]
  rw [if_neg (by rw [hx]; exact Bool.false_ne_true), if_pos hp, hres]
  rfl

theorem alt_idclass_none {rest : List Atom} {c : Char} {cs : Str}
    (h1 : eqI 'i' c = false) (h2 : eqI 'c' c = false) :
    matchAtoms (Atom.alt ['i', 'd'] ['c', 'l', 'a', 's', 's'] :: rest) (c :: cs)
      = none := by
  have hx : ciPref ['i', 'd'] (c :: cs) = false := ciPref_false_head h1
  have hy : ciPref ['c', 'l', 'a', 's', 's'] (c :: cs) = false := ciPref_false_head h2
  simp only [matchAtoms]
  rw [if_neg (by rw [hx]; exact Bool.false_ne_true),
    if_neg (by rw [hy]; exact Bool.false_ne_true)]

theorem match_lit_cont_none {l : List Char} {rest : List Atom} {s : Str}
    (h : matchAtoms rest (s.drop l.length) = none) :
    matchAtoms (Atom.lit l :: rest) s = none := by
  simp only [matchAtoms, h, Option.map_none', ite_self]

theorem match_alt_none {x y : List Char} {rest : List Atom} {s : Str}
    (hx : matchAtoms (Atom.lit x :: rest) s = none)
    (hy : matchAtoms (Atom.lit y :: rest) s = none) :
    matchAtoms (Atom.alt x y :: rest) s = none := by
  simp only [matchAtoms] at hx hy ⊢
  rw [hx]
  exact hy

/-- Inside the attribute value and at the closing quote, neither branch of
the id or class alternation can be followed by an equals sign and a quote,
so the alternation atom kills every such backtracking candidate. -/
theorem altEq_none_inside {rest : List Atom} (w X : Str)
    (hw : w.all hrefChar = true) :
    matchAtoms (Atom.alt ['i', 'd'] ['c', 'l', 'a', 's', 's'] ::
      Atom.lit ['=', '"'] :: rest) (w ++ ('"' :: ('>' :: X))) = none := by
  apply match_alt_none
  · rcases w with _ | ⟨w1, _ | ⟨w2, t⟩⟩
    · exact match_lit_none (ciPref_false_head (by decide))
    · exact match_lit_none
        (ciPref_false_split ['i'] [w1] 'd' '"' [] ('>' :: X) rfl (by decide))
    · apply match_lit_cont_none
      rcases t with _ | ⟨w3, t2⟩
      · exact match_lit_none (ciPref_false_head (by decide))
      · have hw3 : hrefChar w3 = true := by
          simp only [List.all_cons, Bool.and_eq_true] at hw
          exact hw.2.2.1
        exact match_lit_none
          (ciPref_false_head (eqI_eq_false_61 (hrefChar_ne61 hw3)))
  · rcases w with _ | ⟨w1, _ | ⟨w2, _ | ⟨w3, _ | ⟨w4, _ | ⟨w5, t⟩⟩⟩⟩⟩
    · exact match_lit_none (ciPref_false_head (by decide))
    · exact match_lit_none
        (ciPref_false_split ['c'] [w1] 'l' '"' ['a', 's', 's'] ('>' :: X) rfl (by decide))
    · exact match_lit_none
        (ciPref_false_split ['c', 'l'] [w1, w2] 'a' '"' ['s', 's'] ('>' :: X) rfl (by decide))
    · exact match_lit_none
        (ciPref_false_split ['c', 'l', 'a'] [w1, w2, w3] 's' '"' ['s'] ('>' :: X) rfl
          (by decide))
    · exact match_lit_none
        (ciPref_false_split ['c', 'l', 'a', 's'] [w1, w2, w3, w4] 's' '"' [] ('>' :: X) rfl
          (by decide))
    · apply match_lit_cont_none
      rcases t with _ | ⟨w6, t2⟩
      · exact match_lit_none (ciPref_false_head (by decide))
      · have hw6 : hrefChar w6 = true := by
          simp only [List.all_cons, Bool.and_eq_true] at hw
          exact hw.2.2.2.2.2.1
        exact match_lit_none
          (ciPref_false_head (eqI_eq_false_61 (hrefChar_ne61 hw6)))

/-- The canonical blog section: the opening tag with a single space, an id
or class attribute whose value contains a case variant of blog between a
prefix and a suffix of plain value characters, a body, and the closing
tag. -/
def mkSection (attr a blv b body : Str) : Str :=
  '<' :: 's' :: 'e' :: 'c' :: 't' :: 'i' :: 'o' :: 'n' :: ' ' ::
    (attr ++ ('=' :: '"' :: (a ++ (blv ++ (b ++ ('"' :: '>' ::
      (body ++ ['<', '/', 's', 'e', 'c', 't', 'i', 'o', 'n', '>'])))))))

theorem mkSection_length (attr a blv b body : Str) (hblvLen : blv.length = 4) :
    (mkSection attr a blv b body).length
      = 27 + attr.length + a.length + b.length + body.length := by
  simp [mkSection, List.length_append, hblvLen]
  omega

/-- The third pattern matches the canonical blog section, consuming the
opening tag through the first closing section tag, provided no
case-insensitive closing tag starts inside the body. -/
theorem pat3_match (attr a blv b body post : Str)
    (hattr : attr = ['i', 'd'] ∨ attr = ['c', 'l', 'a', 's', 's'])
    (ha : a.all hrefChar = true) (hb : b.all hrefChar = true)
    (hblv : ciPref ['b', 'l', 'o', 'g'] blv = true) (hblvLen : blv.length = 4)
    (hbNo : ciNoOcc ['b', 'l', 'o', 'g'] b = true)
    (hbody : ciNoPrefInsideB ['<', '/', 's', 'e', 'c', 't', 'i', 'o', 'n', '>'] body
      (['<', '/', 's', 'e', 'c', 't', 'i', 'o', 'n', '>'] ++ post) = true) :
    matchAtoms pat3 (mkSection attr a blv b body ++ post)
      = some (27 + attr.length + a.length + b.length + body.length) := by
  obtain ⟨d1, d2, d3, d4, rfl⟩ := len4_cases hblvLen
  have hblv2 := hblv
  simp only [ciPref, Bool.and_eq_true, Bool.and_true] at hblv2
  obtain ⟨f1, f2, f3, f4⟩ : eqI 'b' d1 = true ∧ eqI 'l' d2 = true ∧
      eqI 'o' d3 = true ∧ eqI 'g' d4 = true := by
    refine ⟨hblv2.1, hblv2.2.1, hblv2.2.2.1, ?_⟩
    have h2 := hblv2.2.2.2
    simpa using h2
  have hl1 : lowN d1.toNat = 98 := (eqI_lowN f1).trans (by decide)
  have hl2 : lowN d2.toNat = 108 := (eqI_lowN f2).trans (by decide)
  have hl3 : lowN d3.toNat = 111 := (eqI_lowN f3).trans (by decide)
  have hl4 : lowN d4.toNat = 103 := (eqI_lowN f4).trans (by decide)
  obtain ⟨VAL, VALdef⟩ : ∃ v : Str, v = a ++ ([d1, d2, d3, d4] ++ b) :=
    ⟨a ++ ([d1, d2, d3, d4] ++ b), rfl⟩
  have w1 : matchAtoms [Atom.lit ['<', '/', 's', 'e', 'c', 't', 'i', 'o', 'n', '>']]
      (['<', '/', 's', 'e', 'c', 't', 'i', 'o', 'n', '>'] ++ post) = some 10 := by
    rw [match_lit_chunk ['<', '/', 's', 'e', 'c', 't', 'i', 'o', 'n', '>'] post (by decide) (by decide)]
    rfl
  have w0 : matchAtoms [Atom.lazyStar anyChar, Atom.lit ['<', '/', 's', 'e', 'c', 't', 'i', 'o', 'n', '>']]
      (body ++ (['<', '/', 's', 'e', 'c', 't', 'i', 'o', 'n', '>'] ++ post)) = some (10 + body.length) := by
    have hlen : body.length ≤ (body ++ (['<', '/', 's', 'e', 'c', 't', 'i', 'o', 'n', '>'] ++ post)).length := by
      simp only [List.length_append]
      omega
    have hi : matchAtoms [Atom.lit ['<', '/', 's', 'e', 'c', 't', 'i', 'o', 'n', '>']]
        ((body ++ (['<', '/', 's', 'e', 'c', 't', 'i', 'o', 'n', '>'] ++ post)).drop body.length) = some 10 := by
      rw [List.drop_left]
      exact w1
    have hf : ∀ x, x < body.length → matchAtoms [Atom.lit ['<', '/', 's', 'e', 'c', 't', 'i', 'o', 'n', '>']]
        ((body ++ (['<', '/', 's', 'e', 'c', 't', 'i', 'o', 'n', '>'] ++ post)).drop x) = none := by
      intro x hx
      exact match_lit_none (ciNoPrefInsideB_spec hbody x hx)
    exact match_lazy hlen hi hf
  have a3 : matchAtoms [Atom.lit ['>'], Atom.lazyStar anyChar, Atom.lit ['<', '/', 's', 'e', 'c', 't', 'i', 'o', 'n', '>']]
      (['>'] ++ (body ++ (['<', '/', 's', 'e', 'c', 't', 'i', 'o', 'n', '>'] ++ post))) = some (11 + body.length) := by
    rw [match_lit_chunk ['>'] (body ++ (['<', '/', 's', 'e', 'c', 't', 'i', 'o', 'n', '>'] ++ post)) (by decide) (by decide), w0]
    simp only [Option.map_some', Option.some.injEq, List.length_cons, List.length_nil]
    omega
  have a4 : matchAtoms [Atom.star notGt, Atom.lit ['>'], Atom.lazyStar anyChar,
      Atom.lit ['<', '/', 's', 'e', 'c', 't', 'i', 'o', 'n', '>']]
      (['>'] ++ (body ++ (['<', '/', 's', 'e', 'c', 't', 'i', 'o', 'n', '>'] ++ post))) = some (11 + body.length) := by
    have hz : charRun notGt (['>'] ++ (body ++ (['<', '/', 's', 'e', 'c', 't', 'i', 'o', 'n', '>'] ++ post))) = 0 :=
      charRun_zero_of_head (by decide)
    rw [match_star_zero hz]
    exact a3
  have a5 : matchAtoms [Atom.lit ['"'], Atom.star notGt, Atom.lit ['>'],
      Atom.lazyStar anyChar, Atom.lit ['<', '/', 's', 'e', 'c', 't', 'i', 'o', 'n', '>']]
      (['"'] ++ (['>'] ++ (body ++ (['<', '/', 's', 'e', 'c', 't', 'i', 'o', 'n', '>'] ++ post)))) = some (12 + body.length) := by
    rw [match_lit_chunk ['"'] (['>'] ++ (body ++ (['<', '/', 's', 'e', 'c', 't', 'i', 'o', 'n', '>'] ++ post))) (by decide) (by decide), a4]
    simp only [Option.map_some', Option.some.injEq, List.length_cons, List.length_nil]
    omega
  have a6 : matchAtoms [Atom.star notQuote, Atom.lit ['"'], Atom.star notGt, Atom.lit ['>'],
       Atom.lazyStar anyChar, Atom.lit ['<', '/', 's', 'e', 'c', 't', 'i', 'o', 'n', '>']]
      (b ++ (['"'] ++ (['>'] ++ (body ++ (['<', '/', 's', 'e', 'c', 't', 'i', 'o', 'n', '>'] ++ post))))) = some (12 + body.length + b.length) :=
    match_star_all b (['"'] ++ (['>'] ++ (body ++ (['<', '/', 's', 'e', 'c', 't', 'i', 'o', 'n', '>'] ++ post))))
      (all_mono (fun c => hrefChar_notQuote) hb)
      (charRun_zero_of_head (by decide)) a5
  have a7 : matchAtoms (Atom.lit ['b', 'l', 'o', 'g'] :: [Atom.star notQuote, Atom.lit ['"'], Atom.star notGt, Atom.lit ['>'],
       Atom.lazyStar anyChar, Atom.lit ['<', '/', 's', 'e', 'c', 't', 'i', 'o', 'n', '>']])
      ([d1, d2, d3, d4] ++ (b ++ (['"'] ++ (['>'] ++ (body ++ (['<', '/', 's', 'e', 'c', 't', 'i', 'o', 'n', '>'] ++ post))))))
      = some (16 + body.length + b.length) := by
    rw [match_lit_chunk [d1, d2, d3, d4] (b ++ (['"'] ++ (['>'] ++ (body ++ (['<', '/', 's', 'e', 'c', 't', 'i', 'o', 'n', '>'] ++ post))))) hblv rfl, a6]
    simp only [Option.map_some', Option.some.injEq, List.length_cons, List.length_nil]
    omega
  have a8 : matchAtoms (Atom.star notQuote :: Atom.lit ['b', 'l', 'o', 'g'] :: [Atom.star notQuote, Atom.lit ['"'], Atom.star notGt, Atom.lit ['>'],
       Atom.lazyStar anyChar, Atom.lit ['<', '/', 's', 'e', 'c', 't', 'i', 'o', 'n', '>']])
      (a ++ ([d1, d2, d3, d4] ++ (b ++ (['"'] ++ (['>'] ++ (body ++ (['<', '/', 's', 'e', 'c', 't', 'i', 'o', 'n', '>'] ++ post)))))))
      = some (16 + body.length + b.length + a.length) :=
    anchor_star2 a [d1, d2, d3, d4] b [Atom.star notQuote, Atom.lit ['"'], Atom.star notGt, Atom.lit ['>'],
       Atom.lazyStar anyChar, Atom.lit ['<', '/', 's', 'e', 'c', 't', 'i', 'o', 'n', '>']]
      (body ++ (['<', '/', 's', 'e', 'c', 't', 'i', 'o', 'n', '>'] ++ post)) _ ha hb hblv rfl hbNo a7
  have a9 : matchAtoms (Atom.lit ['=', '"'] :: Atom.star notQuote :: Atom.lit ['b', 'l', 'o', 'g'] :: [Atom.star notQuote, Atom.lit ['"'], Atom.star notGt, Atom.lit ['>'],
       Atom.lazyStar anyChar, Atom.lit ['<', '/', 's', 'e', 'c', 't', 'i', 'o', 'n', '>']])
      (['=', '"'] ++ (a ++ ([d1, d2, d3, d4] ++ (b ++ (['"'] ++ (['>'] ++ (body ++ (['<', '/', 's', 'e', 'c', 't', 'i', 'o', 'n', '>'] ++ post))))))))
      = some (18 + body.length + b.length + a.length) := by
    rw [match_lit_chunk ['=', '"'] (a ++ ([d1, d2, d3, d4] ++ (b ++ (['"'] ++ (['>'] ++ (body ++ (['<', '/', 's', 'e', 'c', 't', 'i', 'o', 'n', '>'] ++ post)))))))
      (by decide) (by decide), a8]
    simp only [Option.map_some', Option.some.injEq, List.length_cons, List.length_nil]
    omega
  rcases hattr with rfl | rfl
  have a10 : matchAtoms (Atom.alt ['i', 'd'] ['c', 'l', 'a', 's', 's'] :: Atom.lit ['=', '"'] :: Atom.star notQuote :: Atom.lit ['b', 'l', 'o', 'g'] :: [Atom.star notQuote, Atom.lit ['"'], Atom.star notGt, Atom.lit ['>'],
       Atom.lazyStar anyChar, Atom.lit ['<', '/', 's', 'e', 'c', 't', 'i', 'o', 'n', '>']])
      (['i', 'd'] ++ (['=', '"'] ++ (a ++ ([d1, d2, d3, d4] ++ (b ++ (['"'] ++ (['>'] ++ (body ++ (['<', '/', 's', 'e', 'c', 't', 'i', 'o', 'n', '>'] ++ post)))))))))
      = some (18 + body.length + b.length + a.length + 2) :=
    match_alt_left
      (show ciPref ['i', 'd'] (['i', 'd'] ++ (['=', '"'] ++ (a ++ ([d1, d2, d3, d4] ++ (b ++ (['"'] ++ (['>'] ++ (body ++ (['<', '/', 's', 'e', 'c', 't', 'i', 'o', 'n', '>'] ++ post))))))))) = true from rfl) a9
  have hgall : ([d1, d2, d3, d4] : Str).all notGt = true := by
    simp only [List.all_cons, List.all_nil, Bool.and_eq_true, Bool.and_true]
    exact ⟨hrefChar_notGt (hrefChar_of_lowN hl1 (by omega) (by omega) (by omega)),
      hrefChar_notGt (hrefChar_of_lowN hl2 (by omega) (by omega) (by omega)),
      hrefChar_notGt (hrefChar_of_lowN hl3 (by omega) (by omega) (by omega)),
      hrefChar_notGt (hrefChar_of_lowN hl4 (by omega) (by omega) (by omega))⟩
  have hdall : ([d1, d2, d3, d4] : Str).all hrefChar = true := by
    simp only [List.all_cons, List.all_nil, Bool.and_eq_true, Bool.and_true]
    exact ⟨hrefChar_of_lowN hl1 (by omega) (by omega) (by omega),
      hrefChar_of_lowN hl2 (by omega) (by omega) (by omega),
      hrefChar_of_lowN hl3 (by omega) (by omega) (by omega),
      hrefChar_of_lowN hl4 (by omega) (by omega) (by omega)⟩
  have hz0 : charRun notGt (['>'] ++ (body ++ (['<', '/', 's', 'e', 'c', 't', 'i', 'o', 'n', '>'] ++ post))) = 0 :=
    charRun_zero_of_head (by decide)
  have hrun : charRun notGt ([' ', 'i', 'd', '=', '"'] ++ (a ++ ([d1, d2, d3, d4] ++ (b ++ (['"'] ++ (['>'] ++ (body ++ (['<', '/', 's', 'e', 'c', 't', 'i', 'o', 'n', '>'] ++ post)))))))) = 10 + a.length + b.length := by
    rw [charRun_append_all (a ++ ([d1, d2, d3, d4] ++ (b ++ (['"'] ++ (['>'] ++ (body ++ (['<', '/', 's', 'e', 'c', 't', 'i', 'o', 'n', '>'] ++ post)))))))
        (show ([' ', 'i', 'd', '=', '"'] : Str).all notGt = true from by decide),
      charRun_append_all ([d1, d2, d3, d4] ++ (b ++ (['"'] ++ (['>'] ++ (body ++ (['<', '/', 's', 'e', 'c', 't', 'i', 'o', 'n', '>'] ++ post)))))) (all_mono (fun c => hrefChar_notGt) ha),
      charRun_append_all (b ++ (['"'] ++ (['>'] ++ (body ++ (['<', '/', 's', 'e', 'c', 't', 'i', 'o', 'n', '>'] ++ post))))) hgall,
      charRun_append_all (['"'] ++ (['>'] ++ (body ++ (['<', '/', 's', 'e', 'c', 't', 'i', 'o', 'n', '>'] ++ post)))) (all_mono (fun c => hrefChar_notGt) hb),
      charRun_append_all (['>'] ++ (body ++ (['<', '/', 's', 'e', 'c', 't', 'i', 'o', 'n', '>'] ++ post)))
        (show (['"'] : Str).all notGt = true from by decide),
      hz0]
    simp only [List.length_cons, List.length_nil]
    omega
  have a10c : matchAtoms (Atom.alt ['i', 'd'] ['c', 'l', 'a', 's', 's'] :: Atom.lit ['=', '"'] :: Atom.star notQuote :: Atom.lit ['b', 'l', 'o', 'g'] :: [Atom.star notQuote, Atom.lit ['"'], Atom.star notGt, Atom.lit ['>'],
       Atom.lazyStar anyChar, Atom.lit ['<', '/', 's', 'e', 'c', 't', 'i', 'o', 'n', '>']])
      ((([' ', 'i', 'd', '=', '"'] ++ (a ++ ([d1, d2, d3, d4] ++ (b ++ (['"'] ++ (['>'] ++ (body ++ (['<', '/', 's', 'e', 'c', 't', 'i', 'o', 'n', '>'] ++ post))))))))).drop 1)
      = some (18 + body.length + b.length + a.length + 2) := a10
  have a11 : matchAtoms (Atom.star notGt :: Atom.alt ['i', 'd'] ['c', 'l', 'a', 's', 's'] :: Atom.lit ['=', '"'] :: Atom.star notQuote :: Atom.lit ['b', 'l', 'o', 'g'] :: [Atom.star notQuote, Atom.lit ['"'], Atom.star notGt, Atom.lit ['>'],
       Atom.lazyStar anyChar, Atom.lit ['<', '/', 's', 'e', 'c', 't', 'i', 'o', 'n', '>']])
      ([' ', 'i', 'd', '=', '"'] ++ (a ++ ([d1, d2, d3, d4] ++ (b ++ (['"'] ++ (['>'] ++ (body ++ (['<', '/', 's', 'e', 'c', 't', 'i', 'o', 'n', '>'] ++ post))))))))
      = some (18 + body.length + b.length + a.length + 2 + 1) := by
    apply match_star_bt (by rw [hrun]; omega) a10c
    intro i h1 h2
    rw [hrun] at h2
    have hVAL : VAL.all hrefChar = true := by
      rw [VALdef, List.all_append, List.all_append]
      simp only [Bool.and_eq_true]
      exact ⟨ha, hdall, hb⟩
    have hvlen : VAL.length = a.length + 4 + b.length := by
      rw [VALdef]
      simp only [List.length_append, List.length_cons, List.length_nil]
      omega
    have hassoc : ([' ', 'i', 'd', '=', '"'] ++ (a ++ ([d1, d2, d3, d4] ++ (b ++ (['"'] ++ (['>'] ++ (body ++ (['<', '/', 's', 'e', 'c', 't', 'i', 'o', 'n', '>'] ++ post)))))))) =
        ([' ', 'i', 'd', '=', '"'] : Str) ++ (VAL ++ ('"' :: ('>' :: (body ++ (['<', '/', 's', 'e', 'c', 't', 'i', 'o', 'n', '>'] ++ post))))) := by
      rw [VALdef]
      simp [List.append_assoc]
    rcases (show i = 2 ∨ i = 3 ∨ i = 4 ∨ (5 ≤ i ∧ i ≤ 5 + VAL.length) ∨ i = 6 + VAL.length from by rw [hvlen]; omega) with rfl | rfl | rfl | ⟨h5, h6⟩ | rfl
    · apply alt_idclass_none
      · decide
      · decide
    · apply alt_idclass_none
      · decide
      · decide
    · apply alt_idclass_none
      · decide
      · decide
    · obtain ⟨k, rfl⟩ : ∃ k, i = 5 + k := ⟨i - 5, by omega⟩
      have hk : k ≤ VAL.length := by omega
      have hd1 : ((([' ', 'i', 'd', '=', '"'] ++ (a ++ ([d1, d2, d3, d4] ++ (b ++ (['"'] ++ (['>'] ++ (body ++ (['<', '/', 's', 'e', 'c', 't', 'i', 'o', 'n', '>'] ++ post))))))))).drop (5 + k))
          = (VAL ++ ('"' :: ('>' :: (body ++ (['<', '/', 's', 'e', 'c', 't', 'i', 'o', 'n', '>'] ++ post))))).drop k := by
        rw [hassoc]
        have hsh := drop_shift ([' ', 'i', 'd', '=', '"'] : Str)
          (VAL ++ ('"' :: ('>' :: (body ++ (['<', '/', 's', 'e', 'c', 't', 'i', 'o', 'n', '>'] ++ post))))) k
        simpa using hsh
      have hd2 : (VAL ++ ('"' :: ('>' :: (body ++ (['<', '/', 's', 'e', 'c', 't', 'i', 'o', 'n', '>'] ++ post))))).drop k
          = VAL.drop k ++ ('"' :: ('>' :: (body ++ (['<', '/', 's', 'e', 'c', 't', 'i', 'o', 'n', '>'] ++ post)))) := drop_append_le _ hk
      rw [hd1, hd2]
      exact altEq_none_inside (VAL.drop k) (body ++ (['<', '/', 's', 'e', 'c', 't', 'i', 'o', 'n', '>'] ++ post)) (all_drop hVAL k)
    · have e1 : ((([' ', 'i', 'd', '=', '"'] : Str)) ++ (VAL ++ ('"' :: ('>' :: (body ++ (['<', '/', 's', 'e', 'c', 't', 'i', 'o', 'n', '>'] ++ post)))))).drop
          (5 + (VAL.length + 1))
          = (VAL ++ ('"' :: ('>' :: (body ++ (['<', '/', 's', 'e', 'c', 't', 'i', 'o', 'n', '>'] ++ post))))).drop (VAL.length + 1) := by
        have hsh := drop_shift ([' ', 'i', 'd', '=', '"'] : Str)
          (VAL ++ ('"' :: ('>' :: (body ++ (['<', '/', 's', 'e', 'c', 't', 'i', 'o', 'n', '>'] ++ post))))) (VAL.length + 1)
        simpa using hsh
      have e2 : (VAL ++ ('"' :: ('>' :: (body ++ (['<', '/', 's', 'e', 'c', 't', 'i', 'o', 'n', '>'] ++ post))))).drop (VAL.length + 1)
          = ('"' :: ('>' :: (body ++ (['<', '/', 's', 'e', 'c', 't', 'i', 'o', 'n', '>'] ++ post)))).drop 1 := drop_shift VAL ('"' :: ('>' :: (body ++ (['<', '/', 's', 'e', 'c', 't', 'i', 'o', 'n', '>'] ++ post)))) 1
      rw [hassoc, show 6 + VAL.length = 5 + (VAL.length + 1) by omega,
        e1, e2]
      apply alt_idclass_none
      · decide
      · decide
  have a12 : matchAtoms (Atom.lit ['<', 's', 'e', 'c', 't', 'i', 'o', 'n'] :: Atom.star notGt :: Atom.alt ['i', 'd'] ['c', 'l', 'a', 's', 's'] :: Atom.lit ['=', '"'] :: Atom.star notQuote :: Atom.lit ['b', 'l', 'o', 'g'] :: [Atom.star notQuote, Atom.lit ['"'], Atom.star notGt, Atom.lit ['>'],
       Atom.lazyStar anyChar, Atom.lit ['<', '/', 's', 'e', 'c', 't', 'i', 'o', 'n', '>']])
      (['<', 's', 'e', 'c', 't', 'i', 'o', 'n'] ++ ([' ', 'i', 'd', '=', '"'] ++ (a ++ ([d1, d2, d3, d4] ++ (b ++ (['"'] ++ (['>'] ++ (body ++ (['<', '/', 's', 'e', 'c', 't', 'i', 'o', 'n', '>'] ++ post)))))))))
      = some (27 + (['i', 'd'] : Str).length + a.length + b.length + body.length) := by
    rw [match_lit_chunk ['<', 's', 'e', 'c', 't', 'i', 'o', 'n']
      ([' ', 'i', 'd', '=', '"'] ++ (a ++ ([d1, d2, d3, d4] ++ (b ++ (['"'] ++ (['>'] ++ (body ++ (['<', '/', 's', 'e', 'c', 't', 'i', 'o', 'n', '>'] ++ post)))))))) (by decide) (by decide), a11]
    simp only [Option.map_some', Option.some.injEq, List.length_cons, List.length_nil]
    omega
  have htext : mkSection ['i', 'd'] a [d1, d2, d3, d4] b body ++ post =
      (['<', 's', 'e', 'c', 't', 'i', 'o', 'n'] ++ ([' ', 'i', 'd', '=', '"'] ++ (a ++ ([d1, d2, d3, d4] ++ (b ++ (['"'] ++ (['>'] ++ (body ++ (['<', '/', 's', 'e', 'c', 't', 'i', 'o', 'n', '>'] ++ post))))))))) := by
    simp [mkSection, List.append_assoc]
  rw [htext]
  exact a12
  have a10 : matchAtoms (Atom.alt ['i', 'd'] ['c', 'l', 'a', 's', 's'] :: Atom.lit ['=', '"'] :: Atom.star notQuote :: Atom.lit ['b', 'l', 'o', 'g'] :: [Atom.star notQuote, Atom.lit ['"'], Atom.star notGt, Atom.lit ['>'],
       Atom.lazyStar anyChar, Atom.lit ['<', '/', 's', 'e', 'c', 't', 'i', 'o', 'n', '>']])
      (['c', 'l', 'a', 's', 's'] ++ (['=', '"'] ++ (a ++ ([d1, d2, d3, d4] ++ (b ++ (['"'] ++ (['>'] ++ (body ++ (['<', '/', 's', 'e', 'c', 't', 'i', 'o', 'n', '>'] ++ post)))))))))
      = some (18 + body.length + b.length + a.length + 5) :=
    match_alt_right (ciPref_false_head (by decide))
      (show ciPref ['c', 'l', 'a', 's', 's'] (['c', 'l', 'a', 's', 's'] ++ (['=', '"'] ++ (a ++ ([d1, d2, d3, d4] ++ (b ++ (['"'] ++ (['>'] ++ (body ++ (['<', '/', 's', 'e', 'c', 't', 'i', 'o', 'n', '>'] ++ post))))))))) = true from rfl) a9
  have hgall : ([d1, d2, d3, d4] : Str).all notGt = true := by
    simp only [List.all_cons, List.all_nil, Bool.and_eq_true, Bool.and_true]
    exact ⟨hrefChar_notGt (hrefChar_of_lowN hl1 (by omega) (by omega) (by omega)),
      hrefChar_notGt (hrefChar_of_lowN hl2 (by omega) (by omega) (by omega)),
      hrefChar_notGt (hrefChar_of_lowN hl3 (by omega) (by omega) (by omega)),
      hrefChar_notGt (hrefChar_of_lowN hl4 (by omega) (by omega) (by omega))⟩
  have hdall : ([d1, d2, d3, d4] : Str).all hrefChar = true := by
    simp only [List.all_cons, List.all_nil, Bool.and_eq_true, Bool.and_true]
    exact ⟨hrefChar_of_lowN hl1 (by omega) (by omega) (by omega),
      hrefChar_of_lowN hl2 (by omega) (by omega) (by omega),
      hrefChar_of_lowN hl3 (by omega) (by omega) (by omega),
      hrefChar_of_lowN hl4 (by omega) (by omega) (by omega)⟩
  have hz0 : charRun notGt (['>'] ++ (body ++ (['<', '/', 's', 'e', 'c', 't', 'i', 'o', 'n', '>'] ++ post))) = 0 :=
    charRun_zero_of_head (by decide)
  have hrun : charRun notGt ([' ', 'c', 'l', 'a', 's', 's', '=', '"'] ++ (a ++ ([d1, d2, d3, d4] ++ (b ++ (['"'] ++ (['>'] ++ (body ++ (['<', '/', 's', 'e', 'c', 't', 'i', 'o', 'n', '>'] ++ post)))))))) = 13 + a.length + b.length := by
    rw [charRun_append_all (a ++ ([d1, d2, d3, d4] ++ (b ++ (['"'] ++ (['>'] ++ (body ++ (['<', '/', 's', 'e', 'c', 't', 'i', 'o', 'n', '>'] ++ post)))))))
        (show ([' ', 'c', 'l', 'a', 's', 's', '=', '"'] : Str).all notGt = true from by decide),
      charRun_append_all ([d1, d2, d3, d4] ++ (b ++ (['"'] ++ (['>'] ++ (body ++ (['<', '/', 's', 'e', 'c', 't', 'i', 'o', 'n', '>'] ++ post)))))) (all_mono (fun c => hrefChar_notGt) ha),
      charRun_append_all (b ++ (['"'] ++ (['>'] ++ (body ++ (['<', '/', 's', 'e', 'c', 't', 'i', 'o', 'n', '>'] ++ post))))) hgall,
      charRun_append_all (['"'] ++ (['>'] ++ (body ++ (['<', '/', 's', 'e', 'c', 't', 'i', 'o', 'n', '>'] ++ post)))) (all_mono (fun c => hrefChar_notGt) hb),
      charRun_append_all (['>'] ++ (body ++ (['<', '/', 's', 'e', 'c', 't', 'i', 'o', 'n', '>'] ++ post)))
        (show (['"'] : Str).all notGt = true from by decide),
      hz0]
    simp only [List.length_cons, List.length_nil]
    omega
  have a10c : matchAtoms (Atom.alt ['i', 'd'] ['c', 'l', 'a', 's', 's'] :: Atom.lit ['=', '"'] :: Atom.star notQuote :: Atom.lit ['b', 'l', 'o', 'g'] :: [Atom.star notQuote, Atom.lit ['"'], Atom.star notGt, Atom.lit ['>'],
       Atom.lazyStar anyChar, Atom.lit ['<', '/', 's', 'e', 'c', 't', 'i', 'o', 'n', '>']])
      ((([' ', 'c', 'l', 'a', 's', 's', '=', '"'] ++ (a ++ ([d1, d2, d3, d4] ++ (b ++ (['"'] ++ (['>'] ++ (body ++ (['<', '/', 's', 'e', 'c', 't', 'i', 'o', 'n', '>'] ++ post))))))))).drop 1)
      = some (18 + body.length + b.length + a.length + 5) := a10
  have a11 : matchAtoms (Atom.star notGt :: Atom.alt ['i', 'd'] ['c', 'l', 'a', 's', 's'] :: Atom.lit ['=', '"'] :: Atom.star notQuote :: Atom.lit ['b', 'l', 'o', 'g'] :: [Atom.star notQuote, Atom.lit ['"'], Atom.star notGt, Atom.lit ['>'],
       Atom.lazyStar anyChar, Atom.lit ['<', '/', 's', 'e', 'c', 't', 'i', 'o', 'n', '>']])
      ([' ', 'c', 'l', 'a', 's', 's', '=', '"'] ++ (a ++ ([d1, d2, d3, d4] ++ (b ++ (['"'] ++ (['>'] ++ (body ++ (['<', '/', 's', 'e', 'c', 't', 'i', 'o', 'n', '>'] ++ post))))))))
      = some (18 + body.length + b.length + a.length + 5 + 1) := by
    apply match_star_bt (by rw [hrun]; omega) a10c
    intro i h1 h2
    rw [hrun] at h2
    have hVAL : VAL.all hrefChar = true := by
      rw [VALdef, List.all_append, List.all_append]
      simp only [Bool.and_eq_true]
      exact ⟨ha, hdall, hb⟩
    have hvlen : VAL.length = a.length + 4 + b.length := by
      rw [VALdef]
      simp only [List.length_append, List.length_cons, List.length_nil]
      omega
    have hassoc : ([' ', 'c', 'l', 'a', 's', 's', '=', '"'] ++ (a ++ ([d1, d2, d3, d4] ++ (b ++ (['"'] ++ (['>'] ++ (body ++ (['<', '/', 's', 'e', 'c', 't', 'i', 'o', 'n', '>'] ++ post)))))))) =
        ([' ', 'c', 'l', 'a', 's', 's', '=', '"'] : Str) ++ (VAL ++ ('"' :: ('>' :: (body ++ (['<', '/', 's', 'e', 'c', 't', 'i', 'o', 'n', '>'] ++ post))))) := by
      rw [VALdef]
      simp [List.append_assoc]
    rcases (show i = 2 ∨ i = 3 ∨ i = 4 ∨ i = 5 ∨ i = 6 ∨ i = 7 ∨ (8 ≤ i ∧ i ≤ 8 + VAL.length) ∨ i = 9 + VAL.length from by rw [hvlen]; omega) with rfl | rfl | rfl | rfl | rfl | rfl | ⟨h5, h6⟩ | rfl
    · apply alt_idclass_none
      · decide
      · decide
    · apply alt_idclass_none
      · decide
      · decide
    · apply alt_idclass_none
      · decide
      · decide
    · apply alt_idclass_none
      · decide
      · decide
    · apply alt_idclass_none
      · decide
      · decide
    · apply alt_idclass_none
      · decide
      · decide
    · obtain ⟨k, rfl⟩ : ∃ k, i = 8 + k := ⟨i - 8, by omega⟩
      have hk : k ≤ VAL.length := by omega
      have hd1 : ((([' ', 'c', 'l', 'a', 's', 's', '=', '"'] ++ (a ++ ([d1, d2, d3, d4] ++ (b ++ (['"'] ++ (['>'] ++ (body ++ (['<', '/', 's', 'e', 'c', 't', 'i', 'o', 'n', '>'] ++ post))))))))).drop (8 + k))
          = (VAL ++ ('"' :: ('>' :: (body ++ (['<', '/', 's', 'e', 'c', 't', 'i', 'o', 'n', '>'] ++ post))))).drop k := by
        rw [hassoc]
        have hsh := drop_shift ([' ', 'c', 'l', 'a', 's', 's', '=', '"'] : Str)
          (VAL ++ ('"' :: ('>' :: (body ++ (['<', '/', 's', 'e', 'c', 't', 'i', 'o', 'n', '>'] ++ post))))) k
        simpa using hsh
      have hd2 : (VAL ++ ('"' :: ('>' :: (body ++ (['<', '/', 's', 'e', 'c', 't', 'i', 'o', 'n', '>'] ++ post))))).drop k
          = VAL.drop k ++ ('"' :: ('>' :: (body ++ (['<', '/', 's', 'e', 'c', 't', 'i', 'o', 'n', '>'] ++ post)))) := drop_append_le _ hk
      rw [hd1, hd2]
      exact altEq_none_inside (VAL.drop k) (body ++ (['<', '/', 's', 'e', 'c', 't', 'i', 'o', 'n', '>'] ++ post)) (all_drop hVAL k)
    · have e1 : ((([' ', 'c', 'l', 'a', 's', 's', '=', '"'] : Str)) ++ (VAL ++ ('"' :: ('>' :: (body ++ (['<', '/', 's', 'e', 'c', 't', 'i', 'o', 'n', '>'] ++ post)))))).drop
          (8 + (VAL.length + 1))
          = (VAL ++ ('"' :: ('>' :: (body ++ (['<', '/', 's', 'e', 'c', 't', 'i', 'o', 'n', '>'] ++ post))))).drop (VAL.length + 1) := by
        have hsh := drop_shift ([' ', 'c', 'l', 'a', 's', 's', '=', '"'] : Str)
          (VAL ++ ('"' :: ('>' :: (body ++ (['<', '/', 's', 'e', 'c', 't', 'i', 'o', 'n', '>'] ++ post))))) (VAL.length + 1)
        simpa using hsh
      have e2 : (VAL ++ ('"' :: ('>' :: (body ++ (['<', '/', 's', 'e', 'c', 't', 'i', 'o', 'n', '>'] ++ post))))).drop (VAL.length + 1)
          = ('"' :: ('>' :: (body ++ (['<', '/', 's', 'e', 'c', 't', 'i', 'o', 'n', '>'] ++ post)))).drop 1 := drop_shift VAL ('"' :: ('>' :: (body ++ (['<', '/', 's', 'e', 'c', 't', 'i', 'o', 'n', '>'] ++ post)))) 1
      rw [hassoc, show 9 + VAL.length = 8 + (VAL.length + 1) by omega,
        e1, e2]
      apply alt_idclass_none
      · decide
      · decide
  have a12 : matchAtoms (Atom.lit ['<', 's', 'e', 'c', 't', 'i', 'o', 'n'] :: Atom.star notGt :: Atom.alt ['i', 'd'] ['c', 'l', 'a', 's', 's'] :: Atom.lit ['=', '"'] :: Atom.star notQuote :: Atom.lit ['b', 'l', 'o', 'g'] :: [Atom.star notQuote, Atom.lit ['"'], Atom.star notGt, Atom.lit ['>'],
       Atom.lazyStar anyChar, Atom.lit ['<', '/', 's', 'e', 'c', 't', 'i', 'o', 'n', '>']])
      (['<', 's', 'e', 'c', 't', 'i', 'o', 'n'] ++ ([' ', 'c', 'l', 'a', 's', 's', '=', '"'] ++ (a ++ ([d1, d2, d3, d4] ++ (b ++ (['"'] ++ (['>'] ++ (body ++ (['<', '/', 's', 'e', 'c', 't', 'i', 'o', 'n', '>'] ++ post)))))))))
      = some (27 + (['c', 'l', 'a', 's', 's'] : Str).length + a.length + b.length + body.length) := by
    rw [match_lit_chunk ['<', 's', 'e', 'c', 't', 'i', 'o', 'n']
      ([' ', 'c', 'l', 'a', 's', 's', '=', '"'] ++ (a ++ ([d1, d2, d3, d4] ++ (b ++ (['"'] ++ (['>'] ++ (body ++ (['<', '/', 's', 'e', 'c', 't', 'i', 'o', 'n', '>'] ++ post)))))))) (by decide) (by decide), a11]
    simp only [Option.map_some', Option.some.injEq, List.length_cons, List.length_nil]
    omega
  have htext : mkSection ['c', 'l', 'a', 's', 's'] a [d1, d2, d3, d4] b body ++ post =
      (['<', 's', 'e', 'c', 't', 'i', 'o', 'n'] ++ ([' ', 'c', 'l', 'a', 's', 's', '=', '"'] ++ (a ++ ([d1, d2, d3, d4] ++ (b ++ (['"'] ++ (['>'] ++ (body ++ (['<', '/', 's', 'e', 'c', 't', 'i', 'o', 'n', '>'] ++ post))))))))) := by
    simp [mkSection, List.append_assoc]
  rw [htext]
  exact a12

/-! ### Substring occurrence (exact, case-sensitive) -/

/-- Exact prefix test. -/
def litPref : Str → Str → Bool
  | [], _ => true
  | _ :: _, [] => false
  | p :: ps, c :: cs => (p == c) && litPref ps cs

/-- Exact substring occurrence test. -/
def occursIn (needle : Str) : Str → Bool
  | [] => litPref needle []
  | c :: cs => litPref needle (c :: cs) || occursIn needle cs

/-- C6 counterexample: the claim asserts a heading whose text is not exactly
Blog is not removed, but a Blog Archive heading lying inside a blog section
is removed together with the section. -/
theorem claim6_counterexample :
    occursIn "<h2>Blog Archive</h2>".toList
        "<section id=\"blog\"><h2>Blog Archive</h2></section>".toList = true ∧
    occursIn "<h2>Blog Archive</h2>".toList
        (processText "<section id=\"blog\"><h2>Blog Archive</h2></section>".toList)
      = false := by
  constructor
  · decide
  · decide

/-- C6 amended: a heading of any level whose text is Blog up to case and
surrounding whitespace is removed by the transformation, with the rest of
the text preserved, provided no other rule matches anywhere in the text, no
heading-rule match starts inside the preceding context, the heading rule
does not match in the following context, the following context does not
begin with whitespace (which the rule would also consume), and the
remaining text has no newline run of three or more; a heading whose text is
not exactly Blog, such as Blog Archive, is left in place when no other rule
removes it, though it can disappear inside a span removed by another rule
such as a blog section. -/
theorem claim6_amended_heading (pre post bl : Str) (d : Char) (m n : Nat)
    (hd : d16 d = true)
    (hbl : ciPref ['B', 'l', 'o', 'g'] bl = true) (hlen : bl.length = 4)
    (hpost : headNotWs post = true)
    (hA : noMatchB pat1 (pre ++ (mkHeading d bl m n ++ post)) = true)
    (hB : noMatchB pat2 (pre ++ (mkHeading d bl m n ++ post)) = true)
    (hC : noMatchB pat3 (pre ++ (mkHeading d bl m n ++ post)) = true)
    (hD : noMatchPrefB pat4 pre (mkHeading d bl m n ++ post) = true)
    (hE : noMatchB pat4 post = true)
    (hF : noMatchB collapsePat (pre ++ post) = true) :
    processText (pre ++ (mkHeading d bl m n ++ post)) = pre ++ post ∧
    processText "<p><h2>Blog Archive</h2></p>".toList
      = "<p><h2>Blog Archive</h2></p>".toList := by
  constructor
  · show collapse (subAll pat4 [] (subAll pat3 [] (subAll pat2 [] (subAll pat1 []
      (pre ++ (mkHeading d bl m n ++ post)))))) = pre ++ post
    rw [subAll_eq_self _ hA, subAll_eq_self _ hB, subAll_eq_self _ hC]
    have hm : matchAtoms pat4 (mkHeading d bl m n ++ post) = some (12 + n + m + 1) := by
      rw [pat4_match d bl m n post hd hbl hlen hpost]
      congr 1
      omega
    have hdrop : (mkHeading d bl m n ++ post).drop (12 + n + m + 1) = post := by
      have h1 := List.drop_left (mkHeading d bl m n) post
      rw [mkHeading_length d bl m n hlen] at h1
      rw [show 12 + n + m + 1 = 13 + n + m by omega]
      exact h1
    rw [subAll_append [] pre (mkHeading d bl m n ++ post) hD,
      subAll_of_pos [] hm, hdrop, subAll_eq_self [] hE, List.nil_append]
    exact subAll_eq_self _ hF
  · decide

/-- Witness for the amended C6 at a concrete heading and context. -/
theorem claim6_witness :
    (d16 '2' = true) ∧
    (ciPref ['B', 'l', 'o', 'g'] "Blog".toList = true) ∧
    ("Blog".toList.length = 4) ∧
    (headNotWs "<p>y</p>".toList = true) ∧
    (noMatchB pat1 ("<p>x</p>".toList ++
      (mkHeading '2' "Blog".toList 1 0 ++ "<p>y</p>".toList)) = true) ∧
    (noMatchB pat2 ("<p>x</p>".toList ++
      (mkHeading '2' "Blog".toList 1 0 ++ "<p>y</p>".toList)) = true) ∧
    (noMatchB pat3 ("<p>x</p>".toList ++
      (mkHeading '2' "Blog".toList 1 0 ++ "<p>y</p>".toList)) = true) ∧
    (noMatchPrefB pat4 "<p>x</p>".toList
      (mkHeading '2' "Blog".toList 1 0 ++ "<p>y</p>".toList) = true) ∧
    (noMatchB pat4 "<p>y</p>".toList = true) ∧
    (noMatchB collapsePat ("<p>x</p>".toList ++ "<p>y</p>".toList) = true) ∧
    processText ("<p>x</p>".toList ++
        (mkHeading '2' "Blog".toList 1 0 ++ "<p>y</p>".toList))
      = "<p>x</p>".toList ++ "<p>y</p>".toList :=
  ⟨by decide, by decide, by decide, by decide, by decide, by decide, by decide,
   by decide, by decide, by decide,
   (claim6_amended_heading "<p>x</p>".toList "<p>y</p>".toList "Blog".toList '2' 1 0
     (by decide) (by decide) (by decide) (by decide) (by decide) (by decide)
     (by decide) (by decide) (by decide) (by decide)).1⟩

/-- C3 counterexample: the claim asserts unrelated list items are never
affected, but a list item lying inside a blog section is removed together
with the section even though the input also contains a genuine blog list
item. -/
theorem claim3_counterexample :
    occursIn "<li>Home</li>".toList
        ("<li><a href=\"/blog\">Blog</a></li>" ++
          "<section id=\"blog\"><li>Home</li></section>").toList = true ∧
    occursIn "<li>Home</li>".toList
        (processText ("<li><a href=\"/blog\">Blog</a></li>" ++
          "<section id=\"blog\"><li>Home</li></section>").toList) = false := by
  constructor
  · decide
  · decide

/-- C3 amended: a list item wrapping a blog anchor, with href value
containing blog case-insensitively and link text Blog up to case and inner
whitespace, is removed with the surrounding context preserved, provided no
first-rule match starts inside the preceding context, the first rule does
not match in the following context, the following context does not begin
with whitespace (which the rule would also consume), and the remaining text
contains no match of the other rules nor a newline run of three or more;
without such side conditions other list items are not always preserved, as
one lying inside a removed blog section disappears. -/
theorem claim3_amended_li (pre post a blv b blText : Str) (m n : Nat)
    (ha : a.all hrefChar = true) (hb : b.all hrefChar = true)
    (hblv : ciPref ['b', 'l', 'o', 'g'] blv = true) (hblvLen : blv.length = 4)
    (hbNo : ciNoOcc ['b', 'l', 'o', 'g'] b = true)
    (hbl : ciPref ['B', 'l', 'o', 'g'] blText = true) (hblLen : blText.length = 4)
    (hpost : headNotWs post = true)
    (hD : noMatchPrefB pat1 pre (mkLi a blv b blText m n ++ post) = true)
    (hE : noMatchB pat1 post = true)
    (hB : noMatchB pat2 (pre ++ post) = true)
    (hC : noMatchB pat3 (pre ++ post) = true)
    (hH : noMatchB pat4 (pre ++ post) = true)
    (hF : noMatchB collapsePat (pre ++ post) = true) :
    processText (pre ++ (mkLi a blv b blText m n ++ post)) = pre ++ post := by
  show collapse (subAll pat4 [] (subAll pat3 [] (subAll pat2 [] (subAll pat1 []
    (pre ++ (mkLi a blv b blText m n ++ post)))))) = pre ++ post
  have hm : matchAtoms pat1 (mkLi a blv b blText m n ++ post)
      = some (31 + n + m + b.length + a.length + 1) := by
    rw [pat1_match a blv b blText m n post ha hb hblv hblvLen hbNo hbl hblLen hpost]
    congr 1
    omega
  have hdrop : (mkLi a blv b blText m n ++ post).drop
      (31 + n + m + b.length + a.length + 1) = post := by
    have h1 := List.drop_left (mkLi a blv b blText m n) post
    rw [mkLi_length a blv b blText m n hblvLen hblLen] at h1
    rw [show 31 + n + m + b.length + a.length + 1
      = 32 + n + m + b.length + a.length by omega]
    exact h1
  rw [subAll_append [] pre (mkLi a blv b blText m n ++ post) hD,
    subAll_of_pos [] hm, hdrop, subAll_eq_self [] hE, List.nil_append,
    subAll_eq_self _ hB, subAll_eq_self _ hC, subAll_eq_self _ hH]
  exact subAll_eq_self _ hF

/-- Witness for the amended C3 at a concrete list item and context. -/
theorem claim3_witness :
    ("/".toList.all hrefChar = true) ∧
    (([] : Str).all hrefChar = true) ∧
    (ciPref ['b', 'l', 'o', 'g'] "blog".toList = true) ∧
    ("blog".toList.length = 4) ∧
    (ciNoOcc ['b', 'l', 'o', 'g'] ([] : Str) = true) ∧
    (ciPref ['B', 'l', 'o', 'g'] "Blog".toList = true) ∧
    ("Blog".toList.length = 4) ∧
    (headNotWs "<p>y</p>".toList = true) ∧
    (noMatchPrefB pat1 "<p>x</p>".toList
      (mkLi "/".toList "blog".toList [] "Blog".toList 0 0 ++ "<p>y</p>".toList) = true) ∧
    (noMatchB pat1 "<p>y</p>".toList = true) ∧
    (noMatchB pat2 ("<p>x</p>".toList ++ "<p>y</p>".toList) = true) ∧
    (noMatchB pat3 ("<p>x</p>".toList ++ "<p>y</p>".toList) = true) ∧
    (noMatchB pat4 ("<p>x</p>".toList ++ "<p>y</p>".toList) = true) ∧
    (noMatchB collapsePat ("<p>x</p>".toList ++ "<p>y</p>".toList) = true) ∧
    processText ("<p>x</p>".toList ++
        (mkLi "/".toList "blog".toList [] "Blog".toList 0 0 ++ "<p>y</p>".toList))
      = "<p>x</p>".toList ++ "<p>y</p>".toList :=
  ⟨by decide, by decide, by decide, by decide, by decide, by decide, by decide,
   by decide, by decide, by decide, by decide, by decide, by decide, by decide,
   claim3_amended_li "<p>x</p>".toList "<p>y</p>".toList "/".toList "blog".toList
     [] "Blog".toList 0 0 (by decide) (by decide) (by decide) (by decide)
     (by decide) (by decide) (by decide) (by decide) (by decide) (by decide)
     (by decide) (by decide) (by decide) (by decide)⟩

/-- C4 counterexample: the claim asserts the surrounding text is preserved
when a standalone blog anchor is removed, but the rule also consumes the
whitespace around the anchor, so Hello space anchor space world becomes
Helloworld rather than keeping the two spaces. -/
theorem claim4_counterexample :
    processText "Hello <a href=\"/blog\">Blog</a> world".toList
        = "Helloworld".toList ∧
    processText "Hello <a href=\"/blog\">Blog</a> world".toList
        ≠ "Hello ".toList ++ " world".toList := by
  constructor
  · decide
  · decide

/-- C4 amended: a standalone blog anchor, with href value containing blog
case-insensitively and link text Blog up to case and inner whitespace, is
removed with the surrounding context preserved, provided the first rule
matches nowhere in the text, no second-rule match starts inside the
preceding context, the second rule does not match in the following context,
the following context does not begin with whitespace (which the rule would
also consume, as the counterexample shows), and the remaining text contains
no match of the later rules nor a newline run of three or more. -/
theorem claim4_amended_anchor (pre post a blv b blText : Str) (m n : Nat)
    (ha : a.all hrefChar = true) (hb : b.all hrefChar = true)
    (hblv : ciPref ['b', 'l', 'o', 'g'] blv = true) (hblvLen : blv.length = 4)
    (hbNo : ciNoOcc ['b', 'l', 'o', 'g'] b = true)
    (hbl : ciPref ['B', 'l', 'o', 'g'] blText = true) (hblLen : blText.length = 4)
    (hpost : headNotWs post = true)
    (hA : noMatchB pat1 (pre ++ (mkAnchor a blv b blText m n ++ post)) = true)
    (hD : noMatchPrefB pat2 pre (mkAnchor a blv b blText m n ++ post) = true)
    (hE : noMatchB pat2 post = true)
    (hC : noMatchB pat3 (pre ++ post) = true)
    (hH : noMatchB pat4 (pre ++ post) = true)
    (hF : noMatchB collapsePat (pre ++ post) = true) :
    processText (pre ++ (mkAnchor a blv b blText m n ++ post)) = pre ++ post := by
  show collapse (subAll pat4 [] (subAll pat3 [] (subAll pat2 [] (subAll pat1 []
    (pre ++ (mkAnchor a blv b blText m n ++ post)))))) = pre ++ post
  rw [subAll_eq_self _ hA]
  have hm : matchAtoms pat2 (mkAnchor a blv b blText m n ++ post)
      = some (22 + n + m + b.length + a.length + 1) := by
    rw [pat2_match a blv b blText m n post ha hb hblv hblvLen hbNo hbl hblLen hpost]
    congr 1
    omega
  have hdrop : (mkAnchor a blv b blText m n ++ post).drop
      (22 + n + m + b.length + a.length + 1) = post := by
    have h1 := List.drop_left (mkAnchor a blv b blText m n) post
    rw [mkAnchor_length a blv b blText m n hblvLen hblLen] at h1
    rw [show 22 + n + m + b.length + a.length + 1
      = 23 + n + m + b.length + a.length by omega]
    exact h1
  rw [subAll_append [] pre (mkAnchor a blv b blText m n ++ post) hD,
    subAll_of_pos [] hm, hdrop, subAll_eq_self [] hE, List.nil_append,
    subAll_eq_self _ hC, subAll_eq_self _ hH]
  exact subAll_eq_self _ hF

/-- Witness for the amended C4 at a concrete anchor and context. -/
theorem claim4_witness :
    ("/".toList.all hrefChar = true) ∧
    (([] : Str).all hrefChar = true) ∧
    (ciPref ['b', 'l', 'o', 'g'] "blog".toList = true) ∧
    ("blog".toList.length = 4) ∧
    (ciNoOcc ['b', 'l', 'o', 'g'] ([] : Str) = true) ∧
    (ciPref ['B', 'l', 'o', 'g'] "Blog".toList = true) ∧
    ("Blog".toList.length = 4) ∧
    (headNotWs "<p>y</p>".toList = true) ∧
    (noMatchB pat1 ("<p>x</p>".toList ++
      (mkAnchor "/".toList "blog".toList [] "Blog".toList 0 0 ++ "<p>y</p>".toList)) = true) ∧
    (noMatchPrefB pat2 "<p>x</p>".toList
      (mkAnchor "/".toList "blog".toList [] "Blog".toList 0 0 ++ "<p>y</p>".toList) = true) ∧
    (noMatchB pat2 "<p>y</p>".toList = true) ∧
    (noMatchB pat3 ("<p>x</p>".toList ++ "<p>y</p>".toList) = true) ∧
    (noMatchB pat4 ("<p>x</p>".toList ++ "<p>y</p>".toList) = true) ∧
    (noMatchB collapsePat ("<p>x</p>".toList ++ "<p>y</p>".toList) = true) ∧
    processText ("<p>x</p>".toList ++
        (mkAnchor "/".toList "blog".toList [] "Blog".toList 0 0 ++ "<p>y</p>".toList))
      = "<p>x</p>".toList ++ "<p>y</p>".toList :=
  ⟨by decide, by decide, by decide, by decide, by decide, by decide, by decide,
   by decide, by decide, by decide, by decide, by decide, by decide, by decide,
   claim4_amended_anchor "<p>x</p>".toList "<p>y</p>".toList "/".toList "blog".toList
     [] "Blog".toList 0 0 (by decide) (by decide) (by decide) (by decide)
     (by decide) (by decide) (by decide) (by decide) (by decide) (by decide)
     (by decide) (by decide) (by decide) (by decide)⟩

/-- C5: a section element whose id or class attribute value contains a
case variant of blog is removed from the opening tag through the first
subsequent closing section tag and only that span, with the surrounding
context preserved, provided no case-insensitive closing tag starts inside
the body, the first two rules match nowhere in the text, no third-rule
match starts inside the preceding context, the third rule does not match
in the following context, and the remaining text contains no heading-rule
match nor a newline run of three or more; in particular, with a nested
section the removal stops at the inner closing tag rather than the
matching one, as the concrete nested example shows. -/
theorem claim5_section_removal (pre post attr a blv b body : Str)
    (hattr : attr = ['i', 'd'] ∨ attr = ['c', 'l', 'a', 's', 's'])
    (ha : a.all hrefChar = true) (hb : b.all hrefChar = true)
    (hblv : ciPref ['b', 'l', 'o', 'g'] blv = true) (hblvLen : blv.length = 4)
    (hbNo : ciNoOcc ['b', 'l', 'o', 'g'] b = true)
    (hbody : ciNoPrefInsideB ['<', '/', 's', 'e', 'c', 't', 'i', 'o', 'n', '>'] body
      (['<', '/', 's', 'e', 'c', 't', 'i', 'o', 'n', '>'] ++ post) = true)
    (hA : noMatchB pat1 (pre ++ (mkSection attr a blv b body ++ post)) = true)
    (hB : noMatchB pat2 (pre ++ (mkSection attr a blv b body ++ post)) = true)
    (hD : noMatchPrefB pat3 pre (mkSection attr a blv b body ++ post) = true)
    (hE : noMatchB pat3 post = true)
    (hH : noMatchB pat4 (pre ++ post) = true)
    (hF : noMatchB collapsePat (pre ++ post) = true) :
    processText (pre ++ (mkSection attr a blv b body ++ post)) = pre ++ post ∧
    processText "<section id=\"blog\"><section class=\"x\">A</section>B</section>".toList
      = "B</section>".toList := by
  constructor
  · show collapse (subAll pat4 [] (subAll pat3 [] (subAll pat2 [] (subAll pat1 []
      (pre ++ (mkSection attr a blv b body ++ post)))))) = pre ++ post
    rw [subAll_eq_self _ hA, subAll_eq_self _ hB]
    have hm : matchAtoms pat3 (mkSection attr a blv b body ++ post)
        = some (26 + attr.length + a.length + b.length + body.length + 1) := by
      rw [pat3_match attr a blv b body post hattr ha hb hblv hblvLen hbNo hbody]
      congr 1
      omega
    have hdrop : (mkSection attr a blv b body ++ post).drop
        (26 + attr.length + a.length + b.length + body.length + 1) = post := by
      have h1 := List.drop_left (mkSection attr a blv b body) post
      rw [mkSection_length attr a blv b body hblvLen] at h1
      rw [show 26 + attr.length + a.length + b.length + body.length + 1
        = 27 + attr.length + a.length + b.length + body.length by omega]
      exact h1
    rw [subAll_append [] pre (mkSection attr a blv b body ++ post) hD,
      subAll_of_pos [] hm, hdrop, subAll_eq_self [] hE, List.nil_append,
      subAll_eq_self _ hH]
    exact subAll_eq_self _ hF
  · decide

/-- Witness for C5 at a concrete section and context. -/
theorem claim5_witness :
    ((['i', 'd'] : Str) = ['i', 'd'] ∨ (['i', 'd'] : Str) = ['c', 'l', 'a', 's', 's']) ∧
    (([] : Str).all hrefChar = true) ∧
    ("-posts".toList.all hrefChar = true) ∧
    (ciPref ['b', 'l', 'o', 'g'] "blog".toList = true) ∧
    ("blog".toList.length = 4) ∧
    (ciNoOcc ['b', 'l', 'o', 'g'] "-posts".toList = true) ∧
    (ciNoPrefInsideB ['<', '/', 's', 'e', 'c', 't', 'i', 'o', 'n', '>'] "A".toList
      (['<', '/', 's', 'e', 'c', 't', 'i', 'o', 'n', '>'] ++ "<p>y</p>".toList) = true) ∧
    (noMatchB pat1 ("<p>x</p>".toList ++
      (mkSection ['i', 'd'] [] "blog".toList "-posts".toList "A".toList
        ++ "<p>y</p>".toList)) = true) ∧
    (noMatchB pat2 ("<p>x</p>".toList ++
      (mkSection ['i', 'd'] [] "blog".toList "-posts".toList "A".toList
        ++ "<p>y</p>".toList)) = true) ∧
    (noMatchPrefB pat3 "<p>x</p>".toList
      (mkSection ['i', 'd'] [] "blog".toList "-posts".toList "A".toList
        ++ "<p>y</p>".toList) = true) ∧
    (noMatchB pat3 "<p>y</p>".toList = true) ∧
    (noMatchB pat4 ("<p>x</p>".toList ++ "<p>y</p>".toList) = true) ∧
    (noMatchB collapsePat ("<p>x</p>".toList ++ "<p>y</p>".toList) = true) ∧
    processText ("<p>x</p>".toList ++
        (mkSection ['i', 'd'] [] "blog".toList "-posts".toList "A".toList
          ++ "<p>y</p>".toList))
      = "<p>x</p>".toList ++ "<p>y</p>".toList :=
  ⟨by decide, by decide, by decide, by decide, by decide, by decide, by decide,
   by decide, by decide, by decide, by decide, by decide, by decide,
   (claim5_section_removal "<p>x</p>".toList "<p>y</p>".toList ['i', 'd'] []
     "blog".toList "-posts".toList "A".toList (Or.inl rfl) (by decide) (by decide)
     (by decide) (by decide) (by decide) (by decide) (by decide) (by decide)
     (by decide) (by decide) (by decide) (by decide)).1⟩

/-- C7: after the four substitution rules, the final clean-up collapses
every maximal run of three or more newlines to exactly two, uniformly over
the whole text, and keeps runs of one or two newlines unchanged: the
programmed collapse coincides with the spec-side description, and the whole
transformation is the rules followed by that collapse. -/
theorem claim7_newline_collapse (s : Str) :
    collapse s = collapseSpec s ∧ processText s = collapseSpec (applyRules s) := by
  have main : ∀ x : Str, collapse x = collapseSpec x := fun x =>
    collapse_eq_spec_aux x.length x (le_refl _)
  exact ⟨main s, main (applyRules s)⟩

end RemoveBlog
